import Mathlib

/-!
Shallow embedding of the metadata mapping core of the beets-vocadb plugin
(`beetsplug/vocadb`): the artist categorizer (`artists.py`), the lyrics
selector (`lyrics_processor.py`), the utility extractors (`utils.py`), the
album/track mapper (`mapper.py`), and the script/language unification pass
of the legacy plugin (`__init__.py`, `get_album_track_infos`).

Conventions used throughout:
* Python `str | None` values are `Option String`; Python truthiness of such a
  value (`if x:`) is `pyTruthy` (`None` and `""` are falsy).
* Python `list`/`tuple` values are `List`; Python `set` values are `List`
  used only through membership (insertion keeps the list duplicate-free).
* Python `int` fields that the code only ever uses as non-negative numbers
  (ids, disc numbers, track numbers, counts, lengths) are `Nat`.
* A Python `dict` built by repeated assignment is an association list where
  assignment to an existing key replaces the value in place and a new key is
  appended (`dictInsertDisc` / `dictUpd`).
* Code that can raise `IndexError` is modelled in the `Except Unit` monad;
  `.error ()` is an uncaught exception.
-/

set_option maxHeartbeats 1000000

namespace VocaDB

/-- `ArtistCategories` (vocadb_api_client/models/artist_categories.py). -/
inductive ArtistCategories where
  | VOCALIST | NOTHING | PRODUCER | ANIMATOR | LABEL | CIRCLE | OTHER
  | BAND | ILLUSTRATOR | SUBJECT
deriving DecidableEq, Repr

/-- `ArtistRoles` (vocadb_api_client/models/artist_roles.py); the roles the
mapping core never branches on are collapsed into `OTHER`. -/
inductive ArtistRoles where
  | DEFAULT | ARRANGER | COMPOSER | LYRICIST | VOCALIST | OTHER
deriving DecidableEq, Repr

/-- `TranslationType` (vocadb_api_client/models/translation_type.py). -/
inductive TranslationType where
  | ORIGINAL | ROMANIZED | TRANSLATION
deriving DecidableEq, Repr

/-- `ContentLanguagePreference`
(vocadb_api_client/models/content_language_preference.py). -/
inductive ContentLanguagePreference where
  | ENGLISH | JAPANESE | ROMAJI | DEFAULT
deriving DecidableEq, Repr

/-- `DiscMediaType` (vocadb_api_client/models/disc_media_type.py). -/
inductive DiscMediaType where
  | AUDIO_DISC | VIDEO
deriving DecidableEq, Repr

/-- `DiscType` (vocadb_api_client/models/disc_type.py). -/
inductive DiscType where
  | UNKNOWN | ALBUM | SINGLE | EP | SPLIT_ALBUM | COMPILATION | VIDEO
  | ARTBOOK | GAME | FANMADE | INSTRUMENTAL | OTHER
deriving DecidableEq, Repr

/-- The string value of a `DiscType` member (PascalCaseStrEnum). -/
def DiscType.strValue : DiscType → String
  | .UNKNOWN => "Unknown"
  | .ALBUM => "Album"
  | .SINGLE => "Single"
  | .EP => "EP"
  | .SPLIT_ALBUM => "SplitAlbum"
  | .COMPILATION => "Compilation"
  | .VIDEO => "Video"
  | .ARTBOOK => "Artbook"
  | .GAME => "Game"
  | .FANMADE => "Fanmade"
  | .INSTRUMENTAL => "Instrumental"
  | .OTHER => "Other"

/-- Python truthiness of a `str | None` value: `None` and `""` are falsy. -/
def pyTruthy : Option String → Bool
  | none => false
  | some s => !s.isEmpty

/-- `ArtistContract` (vocadb_api_client/models/artist_contract.py), restricted
to the fields the mapping core reads (`name`, `id`). -/
structure ArtistContract where
  id : Nat
  name : Option String
deriving DecidableEq, Repr

/-- `ArtistForAlbumForApiContract` / `ArtistForSongContract`
(vocadb_api_client/models): one artist credit.  `categories` and
`effective_roles` are Python sets used only through membership. -/
structure ArtistCredit where
  categories : List ArtistCategories
  effective_roles : List ArtistRoles
  is_support : Bool
  artist : Option ArtistContract := none
  name : Option String := none
deriving DecidableEq, Repr

/-- `LyricsForSongContract` (vocadb_api_client/models). -/
structure LyricsForSongContract where
  translation_type : TranslationType
  value : Option String := none
  culture_codes : Option (List String) := none
deriving DecidableEq, Repr

/-- `TagBaseContract` (vocadb_api_client/models). -/
structure TagBaseContract where
  name : Option String := none
  category_name : Option String := none
deriving DecidableEq, Repr

/-- `TagUsageForApiContract` (vocadb_api_client/models). -/
structure TagUsageForApiContract where
  count : Nat
  tag : TagBaseContract
deriving DecidableEq, Repr

/-- `WebLinkForApiContract` (vocadb_api_client/models). -/
structure WebLinkForApiContract where
  disabled : Bool
  description : Option String := none
  url : Option String := none
deriving DecidableEq, Repr

/-- `OptionalDateTimeContract` (vocadb_api_client/models). -/
structure OptionalDateTimeContract where
  is_empty : Bool
  day : Option Nat := none
  month : Option Nat := none
  year : Option Nat := none
deriving DecidableEq, Repr

/-- A Python `datetime`, restricted to the fields the mapper reads. -/
structure PyDate where
  year : Nat
  month : Nat
  day : Nat
deriving DecidableEq, Repr

/-- `SongForApiContract` (vocadb_api_client/models), restricted to the fields
the mapping core reads. -/
structure SongForApiContract where
  id : Nat
  length_seconds : Nat
  name : Option String := none
  artists : Option (List ArtistCredit) := none
  lyrics : Option (List LyricsForSongContract) := none
  tags : Option (List TagUsageForApiContract) := none
  max_milli_bpm : Option Nat := none
  publish_date : Option PyDate := none
deriving DecidableEq, Repr

/-- `SongInAlbumForApiContract` (vocadb_api_client/models). -/
structure SongInAlbumForApiContract where
  disc_number : Nat
  track_number : Nat
  song : Option SongForApiContract := none
deriving DecidableEq, Repr

/-- `AlbumDiscPropertiesContract` (vocadb_api_client/models). -/
structure AlbumDiscPropertiesContract where
  disc_number : Nat
  id : Nat
  media_type : DiscMediaType
  name : Option String := none
  total : Option Nat := none
deriving DecidableEq, Repr

/-- `AlbumForApiContract` (vocadb_api_client/models), restricted to the fields
the mapping core reads.  A `None` list and an empty list are both falsy in
every place the mapper looks at them, so optional lists collapse to `List`. -/
structure AlbumForApiContract where
  disc_type : DiscType
  id : Nat
  release_date : OptionalDateTimeContract
  artists : Option (List ArtistCredit) := none
  catalog_number : Option String := none
  discs : List AlbumDiscPropertiesContract := []
  name : Option String := none
  tags : List TagUsageForApiContract := []
  tracks : List SongInAlbumForApiContract := []
  web_links : Option (List WebLinkForApiContract) := none
deriving DecidableEq, Repr

/-- `beets.autotag.hooks.TrackInfo`, restricted to the keys the mapper sets
(flexible attributes `track_id` / `artist_id` / `artists_ids` included as
plain fields). -/
structure TrackInfo where
  title : Option String := none
  artist : String := ""
  artists : List String := []
  length : Option Nat := none
  index : Option Nat := none
  track_alt : Option String := none
  media : Option String := none
  medium : Option Nat := none
  medium_index : Option Nat := none
  medium_total : Option Nat := none
  data_source : String := ""
  data_url : String := ""
  lyricist : Option String := none
  composer : Option String := none
  arranger : Option String := none
  bpm : Option String := none
  genre : Option String := none
  script : Option String := none
  language : Option String := none
  lyrics : Option String := none
  original_day : Option Nat := none
  original_month : Option Nat := none
  original_year : Option Nat := none
  track_id : String := ""
  artist_id : Option String := none
  artists_ids : List String := []
deriving DecidableEq, Repr

/-- `beets.autotag.hooks.AlbumInfo`, restricted to the keys the mapper sets. -/
structure AlbumInfo where
  tracks : List TrackInfo
  album : Option String
  albumtype : String
  albumtypes : List String
  asin : Option String
  artist : String
  artists : List String
  artists_ids : List String
  catalognum : Option String
  data_source : String
  day : Option Nat
  label : Option String
  media : Option String
  mediums : Nat
  month : Option Nat
  va : Bool
  year : Option Nat
  data_url : String
  album_id : String
  albumartist_id : Option String
deriving DecidableEq, Repr

/-! ## utils.py -/

/-- `utils.discs_fallback`: one synthetic "CD" audio disc per number
`1..disc_total`. -/
def discs_fallback (disc_total : Nat) : List AlbumDiscPropertiesContract :=
  (List.range disc_total).map fun i =>
    { disc_number := i + 1, id := 0, media_type := .AUDIO_DISC, name := some "CD" }

/-- The regex `Amazon( ((LE|RE|JP|US)).*)?$` of `utils.get_asin`, applied with
`re.match` (anchored at the start): the description is exactly `"Amazon"`, or
starts with `"Amazon "` immediately followed by `LE`, `RE`, `JP` or `US`.
Note the source pattern has no escaped parentheses: the inner `((...))` is
just a doubled group, so a literal `"("` in the description never matches. -/
def descMatchesAmazon (s : String) : Bool :=
  s == "Amazon" ||
    ["Amazon LE", "Amazon RE", "Amazon JP", "Amazon US"].any
      fun p => p.toList.isPrefixOf s.toList

/-- The lazy group of `search(r"/dp/(.+?)(/|$)", url)` once the remainder
after `"/dp/"` is known to be non-empty: the shortest non-empty prefix that
is followed by `/` or by the end of the string. -/
def dpGroup : List Char → List Char
  | [] => []
  | c :: rest => c :: dpTail rest
where
  dpTail : List Char → List Char
    | [] => []
    | c :: rest => if c = '/' then [] else c :: dpTail rest

/-- `search(r"/dp/(.+?)(/|$)", url)`: find the first position where `/dp/`
occurs with at least one character after it, and capture the lazy group. -/
def dpSearch : List Char → Option String
  | [] => none
  | c :: rest =>
    if ("/dp/".toList.isPrefixOf (c :: rest) ∧ (c :: rest).drop 4 ≠ []) then
      some (String.mk (dpGroup ((c :: rest).drop 4)))
    else
      dpSearch rest

/-- `utils.get_asin`: the first web link that is not disabled, has a truthy
url and description, whose description matches the Amazon pattern and whose
url contains `/dp/<asin>`; yields the captured asin. -/
def get_asin (web_links : Option (List WebLinkForApiContract)) : Option String :=
  (web_links.getD []).findSome? fun link =>
    if (!link.disabled && pyTruthy link.url && pyTruthy link.description
        && descMatchesAmazon (link.description.getD "")) then
      dpSearch (link.url.getD "").toList
    else
      none

/-- `utils.get_bpm`: `str(max_milli_bpm // 1000)` when truthy (non-`None`,
non-zero), else `None`. -/
def get_bpm : Option Nat → Option String
  | none => none
  | some 0 => none
  | some n => some (toString (n / 1000))

/-- Python `str.title()` restricted to ASCII letters: each letter starting a
run of letters is uppercased, the rest of the run lowercased. -/
def pyTitle (s : String) : String :=
  String.mk (go false s.toList)
where
  go : Bool → List Char → List Char
    | _, [] => []
    | prevAlpha, c :: rest =>
      if c.isAlpha then
        (if prevAlpha then c.toLower else c.toUpper) :: go true rest
      else
        c :: go false rest

/-- Stable insertion used to embed Python's
`sorted(remote_tags, key=lambda x: x.count, reverse=True)`: an element is
placed after every already-sorted element whose count is `≥` its own, so
equal counts keep their input order. -/
def insertByCountDesc (t : TagUsageForApiContract) :
    List TagUsageForApiContract → List TagUsageForApiContract
  | [] => [t]
  | u :: us => if t.count ≤ u.count then u :: insertByCountDesc t us else t :: u :: us

/-- `sorted(remote_tags, key=lambda x: x.count, reverse=True)` (stable). -/
def sortByCountDesc (l : List TagUsageForApiContract) : List TagUsageForApiContract :=
  l.foldl (fun acc t => insertByCountDesc t acc) []

/-- `utils.get_genres`: sort tag usages by count descending (stable), keep
tags with category `"Genres"` and a truthy name, title-case the names and
join them with `"; "`; `None` when nothing is kept. -/
def get_genres (remote_tags : List TagUsageForApiContract) : Option String :=
  let genres := (sortByCountDesc remote_tags).filterMap fun u =>
    if (u.tag.category_name == some "Genres" && pyTruthy u.tag.name) then
      some (pyTitle (u.tag.name.getD ""))
    else
      none
  if genres.isEmpty then none else some (String.intercalate "; " genres)

/-- The consecutive runs of `itertools.groupby(remote_songs, key=disc_number)`. -/
def runsByDisc : List SongInAlbumForApiContract →
    List (Nat × List SongInAlbumForApiContract)
  | [] => []
  | s :: rest =>
    match runsByDisc rest with
    | [] => [(s.disc_number, [s])]
    | (k, g) :: more =>
      if s.disc_number = k then (k, s :: g) :: more
      else (s.disc_number, [s]) :: (k, g) :: more

/-- Assignment `d[k] = v` on an insertion-ordered dict: replace the value of
an existing key in place, append a new key. -/
def dictInsertDisc (d : List (Nat × List SongInAlbumForApiContract)) (k : Nat)
    (v : List SongInAlbumForApiContract) :
    List (Nat × List SongInAlbumForApiContract) :=
  if d.any (fun p => p.1 = k) then
    d.map fun p => if p.1 = k then (k, v) else p
  else
    d ++ [(k, v)]

/-- `utils.group_tracks_by_disc`: the dict comprehension over `groupby` runs.
The songs are *not* sorted first, so a disc number appearing in several
non-adjacent runs keeps the position of its first run but the songs of its
last run. -/
def group_tracks_by_disc (remote_songs : List SongInAlbumForApiContract) :
    List (Nat × List SongInAlbumForApiContract) :=
  (runsByDisc remote_songs).foldl (fun d p => dictInsertDisc d p.1 p.2) []

/-! ## artists.py -/

/-- `plugin_config.VA_NAME`: the configured various-artists label (beets'
default value). -/
def VA_NAME : String := "Various Artists"

/-- `CategorizedArtists` (artists.py): the six role buckets, keyed by
`ProcessedArtistCategories` whose definition order is PRODUCERS, COMPOSERS,
ARRANGERS, LYRICISTS, CIRCLES, VOCALISTS; the dict is initialized with all
keys in that order, so iteration over it visits the buckets in that order. -/
structure CategorizedArtists where
  producers : List (String × String) := []
  composers : List (String × String) := []
  arrangers : List (String × String) := []
  lyricists : List (String × String) := []
  circles : List (String × String) := []
  vocalists : List (String × String) := []
deriving DecidableEq, Repr

/-- Name/id resolution at the top of `_categorize_artists`' loop: prefer the
referenced canonical artist's name and stringified id, else the credit's own
name with an empty id; a falsy name means the credit is skipped. -/
def resolveNameId (c : ArtistCredit) : Option (String × String) :=
  let p : Option String × String :=
    match c.artist with
    | some remote_artist => (remote_artist.name, toString remote_artist.id)
    | none => (c.name, "")
  match p with
  | (some n, i) => if n.isEmpty then none else some (n, i)
  | (none, _) => none

/-- `{Producer, Band} & categories` is non-empty. -/
def isProducerCredit (c : ArtistCredit) : Bool :=
  c.categories.any fun x => x = .PRODUCER || x = .BAND

/-- Python `set.add` on a list used as a set. -/
def setAdd (x : String × String) (s : List (String × String)) :
    List (String × String) :=
  if x ∈ s then s else s ++ [x]

/-- Python `set |= {Arranger, Composer, Lyricist}` on the effective roles. -/
def addProducerRoles (roles : List ArtistRoles) : List ArtistRoles :=
  roles ++ [ArtistRoles.ARRANGER, .COMPOSER, .LYRICIST].filter
    fun r => decide (r ∉ roles)

/-- The condition under which the statement
`effective_roles |= producer_roles` (artists.py line 200) is reached for a
credit: the name resolves, the categories contain Producer or Band, and the
effective roles contain `Default`.  The credit contracts are *frozen* msgspec
structs whose `effective_roles` is a `cached_property`: the augmented
assignment first mutates the cached role set in place and then stores the
attribute, and the store raises `AttributeError` on a frozen struct (compare
the deliberately non-frozen `TaggedBase` used for mutated structs in
`requests_handler/models.py`).  So a credit satisfying this condition has
its role set expanded in place and then aborts the categorization loop. -/
abbrev raisesOnDefault (c : ArtistCredit) : Prop :=
  (resolveNameId c).isSome ∧ isProducerCredit c
    ∧ ArtistRoles.DEFAULT ∈ c.effective_roles

/-- The in-place mutation that line 200 completes on the cached role set of
a raising credit before the attribute store raises: the roles gain
`{Arranger, Composer, Lyricist}`; every other credit is untouched. -/
def updateCredit (c : ArtistCredit) : ArtistCredit :=
  if raisesOnDefault c then
    { c with effective_roles := addProducerRoles c.effective_roles }
  else
    c

/-- The body of `_categorize_artists`' loop for one credit *on the
assumption that line 200 does not raise*: resolve the name, record
not-creditable credits, expand `Default` producer roles, and append the
credit to every bucket of `role_category_map` it matches.  (The faithful
run, including the `AttributeError` abort at the first raising credit, is
`categorize_artists_run` below; this non-raising idealization coincides with
it on credit lists without a raising credit, see
`categorize_run_of_no_raise`, and is used only by statements confined to
that agreement domain.)  The `Vocalist` key of the role map also matches
through the *effective roles* because `ArtistCategories.VOCALIST` and
`ArtistRoles.VOCALIST` share the string value `"Vocalist"`; no role shares a
value with `Circle`. -/
def categorizeStep
    (acc : CategorizedArtists × List (String × String) × List ArtistCredit)
    (c : ArtistCredit) :
    CategorizedArtists × List (String × String) × List ArtistCredit :=
  let b := acc.1
  let nc := acc.2.1
  let done := acc.2.2
  match resolveNameId c with
  | none => (b, nc, done ++ [c])
  | some (name, id) =>
    let nc :=
      if c.is_support || c.categories.any (fun x => x = .NOTHING || x = .LABEL)
      then setAdd (name, id) nc else nc
    let c := updateCredit c
    let b := if isProducerCredit c then
        { b with producers := b.producers ++ [(name, id)] } else b
    let b := if ArtistCategories.CIRCLE ∈ c.categories then
        { b with circles := b.circles ++ [(name, id)] } else b
    let b := if ArtistRoles.ARRANGER ∈ c.effective_roles then
        { b with arrangers := b.arrangers ++ [(name, id)] } else b
    let b := if ArtistRoles.COMPOSER ∈ c.effective_roles then
        { b with composers := b.composers ++ [(name, id)] } else b
    let b := if ArtistRoles.LYRICIST ∈ c.effective_roles then
        { b with lyricists := b.lyricists ++ [(name, id)] } else b
    let b := if ArtistCategories.VOCALIST ∈ c.categories
        ∨ ArtistRoles.VOCALIST ∈ c.effective_roles then
        { b with vocalists := b.vocalists ++ [(name, id)] } else b
    (b, nc, done ++ [c])

/-- The fallback chain `_categorize_artists` applies after its loop:
vocalists stand in for missing producers; producers stand in for each empty
one of arrangers/composers/lyricists. -/
def applyBucketFallbacks (b : CategorizedArtists) : CategorizedArtists :=
  let b := if b.vocalists ≠ [] ∧ b.producers = [] then
      { b with producers := b.vocalists } else b
  let b := if b.arrangers = [] then { b with arrangers := b.producers } else b
  let b := if b.composers = [] then { b with composers := b.producers } else b
  let b := if b.lyricists = [] then { b with lyricists := b.producers } else b
  b

/-- `_categorize_artists` (artists.py) on the non-raising idealization, with
the processed credit list exposed as the third component: bucket every
credit, then apply the fallback chain.  Agrees with the faithful
`categorize_artists_run` exactly on credit lists without a raising credit. -/
def categorize_artists_full (remote_artists : List ArtistCredit) :
    CategorizedArtists × List (String × String) × List ArtistCredit :=
  let acc := remote_artists.foldl categorizeStep ({}, [], [])
  (applyBucketFallbacks acc.1, acc.2.1, acc.2.2)

/-- `_categorize_artists`' declared return value (buckets and the
not-creditable set). -/
def categorize_artists (remote_artists : List ArtistCredit) :
    CategorizedArtists × List (String × String) :=
  ((categorize_artists_full remote_artists).1,
    (categorize_artists_full remote_artists).2.1)

/-- Assignment on the insertion-ordered name -> id dict used by
`_extract_artists_from_categories` (`artists |= category`): an existing name
keeps its position but takes the new id; a new name is appended. -/
def dictUpd (d : List (String × String)) (p : String × String) :
    List (String × String) :=
  if d.any (fun q => q.1 = p.1) then
    d.map fun q => if q.1 = p.1 then (q.1, p.2) else q
  else
    d ++ [p]

/-- The six buckets concatenated in the iteration order of
`CategorizedArtists` (the `ProcessedArtistCategories` definition order). -/
def bucketPairs (b : CategorizedArtists) : List (String × String) :=
  b.producers ++ b.composers ++ b.arrangers ++ b.lyricists
    ++ b.circles ++ b.vocalists

/-- `_extract_artists_from_categories` (artists.py): merge every bucket into
one insertion-ordered dict and split it into parallel name/id lists. -/
def extract_artists_from_categories (b : CategorizedArtists) :
    List String × List String :=
  let artists := (bucketPairs b).foldl dictUpd []
  (artists.map Prod.fst, artists.map Prod.snd)

/-- The `main_artists` list comprehension of `_get_artists`: creditable
producer/circle entries (each replaced by `VA_NAME` under `comp`), falling
back to the creditable vocalist names when that list is empty. -/
def mainArtistsOf (b : CategorizedArtists) (nc : List (String × String))
    (comp : Bool) : List String :=
  let pc := ((b.producers ++ b.circles).filter fun p => decide (p ∉ nc)).map
    fun p => if comp then VA_NAME else p.1
  if pc = [] then
    (b.vocalists.filter fun p => decide (p ∉ nc)).map Prod.fst
  else
    pc

/-- `", ".join(main_artists)` unless more than five main artists, in which
case the string collapses to `VA_NAME`. -/
def artistStringOf (main : List String) : String :=
  if main.length > 5 then VA_NAME else String.intercalate ", " main

/-- The primary-artist-id loop of `_get_artists`: the first of the given
names whose id in the parallel lists is non-empty. -/
def firstMainId (names ids : List String) : List String → Option String
  | [] => none
  | x :: rest =>
    match names.findIdx? (fun n => n = x) with
    | some i =>
      match ids.get? i with
      | some v => if v.isEmpty then firstMainId names ids rest else some v
      | none => firstMainId names ids rest
    | none => firstMainId names ids rest

/-- The result tuple of `_get_artists`. -/
structure ArtistsResult where
  artist_string : String
  artist_id : Option String
  artists_names : List String
  artists_ids : List String
deriving DecidableEq, Repr

/-- `_get_artists` (artists.py): main-artist string with optional featured
suffix, primary artist id, and the merged name/id lists. -/
def get_artists (b : CategorizedArtists) (nc : List (String × String))
    (comp include_featured_artists : Bool) : ArtistsResult :=
  let main_artists := mainArtistsOf b nc comp
  let s := artistStringOf main_artists
  let featured_artists :=
    if include_featured_artists ∧ b.vocalists ≠ [] ∧ (comp ∨ main_artists ≠ [])
    then (b.vocalists.filter fun p => decide (p ∉ nc)).map Prod.fst
    else []
  let s :=
    if featured_artists ≠ []
        ∧ ¬ main_artists.length + featured_artists.length > 5 then
      s ++ " feat. " ++ String.intercalate ", " featured_artists
    else s
  let names := (extract_artists_from_categories b).1
  let ids := (extract_artists_from_categories b).2
  let aid :=
    match firstMainId names ids (main_artists ++ featured_artists) with
    | some v => some v
    | none => ids.find? fun v => !v.isEmpty
  { artist_string := s, artist_id := aid, artists_names := names,
    artists_ids := ids }

/-- `_get_label` (artists.py): the (optional) own name of the first credit
whose categories contain `Label`. -/
def get_label (remote_artists : Option (List ArtistCredit)) : Option String :=
  ((remote_artists.getD []).find? fun c =>
    decide (ArtistCategories.LABEL ∈ c.categories)).bind fun c => c.name

/-- The result tuple of `get_album_artists`. -/
structure AlbumArtistsResult where
  artist_string : String
  artist_id : Option String
  artists_names : List String
  artists_ids : List String
  label : Option String
deriving DecidableEq, Repr

/-- `get_album_artists` (artists.py). -/
def get_album_artists (remote_artists : Option (List ArtistCredit))
    (comp : Bool) (include_featured_artists : Bool) :
    AlbumArtistsResult :=
  match remote_artists with
  | none => ⟨"", none, [], [], none⟩
  | some [] => ⟨"", none, [], [], none⟩
  | some l =>
    let bnc := categorize_artists l
    let r := get_artists bnc.1 bnc.2 comp include_featured_artists
    ⟨r.artist_string, r.artist_id, r.artists_names, r.artists_ids,
      get_label (some l)⟩

/-- `", ".join(names of a bucket) or None`. -/
def joinOrNone (bucket : List (String × String)) : Option String :=
  let s := String.intercalate ", " (bucket.map Prod.fst)
  if s.isEmpty then none else some s

/-- The result tuple of `get_track_artists`.  The Python function returns the
*string* `""` for arranger/composer/lyricist when the credit list is falsy
and `None` when a bucket is empty, hence `Option String` with `some ""`. -/
structure TrackArtistsResult where
  artist_string : String
  artist_id : Option String
  artists_names : List String
  artists_ids : List String
  arranger : Option String
  composer : Option String
  lyricist : Option String
deriving DecidableEq, Repr

/-- `get_track_artists` (artists.py): categorize, join the
arranger/composer/lyricist buckets, and delegate to `_get_artists` with
`comp=False`, `include_featured_artists=True`. -/
def get_track_artists (remote_artists : Option (List ArtistCredit)) :
    TrackArtistsResult :=
  match remote_artists with
  | none => ⟨"", none, [], [], some "", some "", some ""⟩
  | some [] => ⟨"", none, [], [], some "", some "", some ""⟩
  | some l =>
    let bnc := categorize_artists l
    let r := get_artists bnc.1 bnc.2 false true
    ⟨r.artist_string, r.artist_id, r.artists_names, r.artists_ids,
      joinOrNone bnc.1.arrangers, joinOrNone bnc.1.composers,
      joinOrNone bnc.1.lyricists⟩

/-! ## lyrics_processor.py -/

/-- The per-variant intersection step of `LyricsProcessor.get_lyrics`: a
truthy `culture_codes` set is intersected with `{"en", "ja"}`; `None` and the
empty set behave alike afterwards. -/
def cultureEnJa (c : LyricsForSongContract) : List String :=
  match c.culture_codes with
  | none => []
  | some l => l.filter fun x => x == "en" || x == "ja"

/-- One iteration of `LyricsProcessor.get_lyrics`' loop over the state
`(script, language, lyrics)`. -/
def lyricsStep (pref : ContentLanguagePreference)
    (acc : Option String × Option String × Option String)
    (c : LyricsForSongContract) :
    Option String × Option String × Option String :=
  let cc := cultureEnJa c
  if cc = [] then
    if pref = .ROMAJI ∧ c.translation_type = .ROMANIZED then
      (acc.1, acc.2.1, c.value)
    else acc
  else if "en" ∈ cc then
    (if c.translation_type = .ORIGINAL then some "Latn" else acc.1,
     if c.translation_type = .ORIGINAL then some "eng" else acc.2.1,
     if pref = .ENGLISH then c.value else acc.2.2)
  else if "ja" ∈ cc then
    (if c.translation_type = .ORIGINAL then some "Jpan" else acc.1,
     if c.translation_type = .ORIGINAL then some "jpn" else acc.2.1,
     if pref = .JAPANESE then c.value else acc.2.2)
  else acc

/-- `LyricsProcessor._get_fallback_lyrics`: English preference looks for an
`en` variant and then degrades to Romaji; Romaji takes the first romanized
variant; Default takes the first original variant; finally the first
variant's text. -/
def get_fallback_lyrics (pref : ContentLanguagePreference)
    (l : List LyricsForSongContract) : Option String :=
  match (if pref = .ENGLISH then
      l.find? fun c =>
        match c.culture_codes with
        | some codes => !codes.isEmpty && codes.contains "en"
        | none => false
    else none) with
  | some c => c.value
  | none =>
    let pref := if pref = .ENGLISH then .ROMAJI else pref
    match (if pref = .ROMAJI then
        l.find? fun c => c.translation_type == .ROMANIZED
      else none) with
    | some c => c.value
    | none =>
      match (if pref = .DEFAULT then
          l.find? fun c => c.translation_type == .ORIGINAL
        else none) with
      | some c => c.value
      | none => l.head?.bind fun c => c.value

/-- `LyricsProcessor.get_lyrics`: walk the variants accumulating
`(script, language, lyrics)`, then fall back when no lyrics text was
selected. -/
def get_lyrics (pref : ContentLanguagePreference)
    (remote_lyrics_list : Option (List LyricsForSongContract)) :
    Option String × Option String × Option String :=
  match remote_lyrics_list with
  | none => (none, none, none)
  | some [] => (none, none, none)
  | some l =>
    let r := l.foldl (lyricsStep pref) (none, none, none)
    if pyTruthy r.2.2 then r
    else (r.1, r.2.1, get_fallback_lyrics pref l)

/-! ## mapper.py -/

/-- The configuration a `Mapper` instance carries. -/
structure MapperConfig where
  base_url : String
  data_source : String
  ignore_video_tracks : Bool
  include_featured_album_artists : Bool
  language_preference : ContentLanguagePreference
deriving DecidableEq, Repr

/-- `Mapper.track_info`: build one `TrackInfo` from a song record.  The
`httpx.URL(...).join(...)` for `data_url` is modelled as concatenation onto
the (slash-terminated) base url.  The Python signature allows returning
`None` but every path returns a populated, truthy `TrackInfo`. -/
def track_info (cfg : MapperConfig) (remote_song : SongForApiContract)
    (index : Option Nat) (media : Option String)
    (medium : Option Nat) (medium_index : Option Nat)
    (medium_total : Option Nat) : TrackInfo :=
  let r := get_track_artists remote_song.artists
  let track_id := toString remote_song.id
  let sll := get_lyrics cfg.language_preference remote_song.lyrics
  { title := remote_song.name
    artist := r.artist_string
    artists := r.artists_names
    length := some remote_song.length_seconds
    index := index
    track_alt := match index with
      | some i => if i ≠ 0 then some (toString i) else none
      | none => none
    media := media
    medium := medium
    medium_index := medium_index
    medium_total := medium_total
    data_source := cfg.data_source
    data_url := cfg.base_url ++ "S/" ++ track_id
    lyricist := r.lyricist
    composer := r.composer
    arranger := r.arranger
    bpm := get_bpm remote_song.max_milli_bpm
    genre := get_genres (remote_song.tags.getD [])
    script := sll.1
    language := sll.2.1
    lyrics := sll.2.2
    original_day := remote_song.publish_date.map fun d => d.day
    original_month := remote_song.publish_date.map fun d => d.month
    original_year := remote_song.publish_date.map fun d => d.year
    track_id := track_id
    artist_id := r.artist_id
    artists_ids := r.artists_ids }

/-- `remote_discs[disc_number - 1]` with Python indexing: disc number `0`
maps to index `-1` (the last disc); an index past the end raises. -/
def pyDiscAt (discs : List AlbumDiscPropertiesContract) (disc_number : Nat) :
    Option AlbumDiscPropertiesContract :=
  if disc_number = 0 then discs.getLast? else discs.get? (disc_number - 1)

/-- `if not track_info.genre: track_info.genre = album_genre`. -/
def fillGenre (album_genre : Option String) (t : TrackInfo) : TrackInfo :=
  if pyTruthy t.genre then t else { t with genre := album_genre }

/-- The inner loop of `Mapper.get_album_track_infos` for one disc's group:
emit a `TrackInfo` for every group member that has an embedded song, with
`medium` the disc number, `medium_index` the track number, `index` *also*
the track number, and `medium_total` the size of the group. -/
def emitDisc (cfg : MapperConfig) (album_genre : Option String)
    (disc_name : Option String) (disc_number : Nat) (total : Nat)
    (g : List SongInAlbumForApiContract) : List TrackInfo :=
  g.filterMap fun remote_song =>
    remote_song.song.map fun s =>
      fillGenre album_genre
        (track_info cfg s (some remote_song.track_number) disc_name
          (some disc_number) (some remote_song.track_number) (some total))

/-- The loop of `Mapper.get_album_track_infos` over the grouped discs, in
the `Except Unit` monad: looking up a disc number past the end of
`remote_discs` raises `IndexError`.  An empty group is skipped before the
lookup; a video disc is skipped (after the lookup) when
`ignore_video_tracks` is set. -/
def tracksGo (cfg : MapperConfig) (remote_discs : List AlbumDiscPropertiesContract)
    (album_genre : Option String) :
    List (Nat × List SongInAlbumForApiContract) → Except Unit (List TrackInfo)
  | [] => .ok []
  | (disc_number, g) :: rest =>
    if g = [] then tracksGo cfg remote_discs album_genre rest
    else
      match pyDiscAt remote_discs disc_number with
      | none => .error ()
      | some remote_disc =>
        let emitted :=
          if remote_disc.media_type = .VIDEO ∧ cfg.ignore_video_tracks then []
          else emitDisc cfg album_genre remote_disc.name disc_number g.length g
        (tracksGo cfg remote_discs album_genre rest).map fun ts => emitted ++ ts

/-- `Mapper.get_album_track_infos` (mapper.py): group the songs by disc and
emit every disc's tracks. -/
def get_album_track_infos (cfg : MapperConfig)
    (remote_songs : List SongInAlbumForApiContract)
    (remote_discs : List AlbumDiscPropertiesContract)
    (album_genre : Option String) : Except Unit (List TrackInfo) :=
  tracksGo cfg remote_discs album_genre (group_tracks_by_disc remote_songs)

/-- The discs `Mapper.album_info` works with: the album's own discs, or the
synthesized fallback numbered up to the *last* track's disc number. -/
def effectiveDiscs (remote_album : AlbumForApiContract) :
    List AlbumDiscPropertiesContract :=
  if remote_album.discs.isEmpty then
    discs_fallback ((remote_album.tracks.getLast?.map
      fun t => t.disc_number).getD 0)
  else remote_album.discs

/-! ## Legacy script/language unification (`__init__.py`,
`VocaDBPlugin.get_album_track_infos`, the running-state update at lines
706-712 and the back-patching pass at lines 714-717). -/

/-- The running script/language update performed for each emitted track. -/
def unifyStep (sl : Option String × Option String) (t : TrackInfo) :
    Option String × Option String :=
  if pyTruthy t.script ∧ sl.1 ≠ some "Qaaa" then
    if ¬ pyTruthy sl.1 then (t.script, t.language)
    else if sl.1 ≠ t.script then (some "Qaaa", some "mul")
    else sl
  else sl

/-- The unification applied to an emitted track list: fold the running
update over the tracks, then, when the running script is `"Qaaa"` or the
running language is `"mul"`, overwrite every track's script/language with
the running pair.  Returns the patched list and the running pair. -/
def legacy_unify (ts : List TrackInfo) :
    List TrackInfo × Option String × Option String :=
  let sl := ts.foldl unifyStep (none, none)
  if sl.1 = some "Qaaa" ∨ sl.2 = some "mul" then
    (ts.map (fun t => { t with script := sl.1, language := sl.2 }), sl)
  else
    (ts, sl)

/-! ## The raising run of the mapping core

artists.py line 200 executes `effective_roles |= producer_roles` on a frozen
msgspec contract: the cached role set is mutated in place and the subsequent
attribute store raises `AttributeError`, aborting `_categorize_artists` at
the first raising credit and propagating out of `get_track_artists` /
`get_album_artists` / `Mapper.track_info` / `Mapper.album_info` (none of
which catch it).  The definitions below model that run faithfully in the
`Except Unit` monad, with the post-call state of the (caller-visible,
in-place mutated) credit list exposed alongside the result. -/

/-- The loop of `_categorize_artists` with the frozen-struct raise: on the
first raising credit the loop stops, the credit list is left with that
credit's cached role set expanded, and the accumulated buckets are
discarded by the propagating exception; otherwise each credit is processed
by `categorizeStep` and the fallback chain runs at the end. -/
def categorize_run_go
    (acc : CategorizedArtists × List (String × String) × List ArtistCredit) :
    List ArtistCredit →
    Except Unit (CategorizedArtists × List (String × String))
      × List ArtistCredit
  | [] => (.ok (applyBucketFallbacks acc.1, acc.2.1), acc.2.2)
  | c :: rest =>
    if raisesOnDefault c then (.error (), acc.2.2 ++ updateCredit c :: rest)
    else categorize_run_go (categorizeStep acc c) rest

/-- `_categorize_artists` (artists.py) as actually run: the buckets and
not-creditable set on normal return (`.error ()` for the `AttributeError`
abort), paired with the post-call state of the input credit list. -/
def categorize_artists_run (remote_artists : List ArtistCredit) :
    Except Unit (CategorizedArtists × List (String × String))
      × List ArtistCredit :=
  categorize_run_go ({}, [], []) remote_artists

/-- The post-call state of a credit list: unchanged up to the first raising
credit, whose cached role set has been expanded in place; everything after
it is untouched (the loop never reached it). -/
def expandFirstDefault : List ArtistCredit → List ArtistCredit
  | [] => []
  | c :: rest =>
    if raisesOnDefault c then updateCredit c :: rest
    else c :: expandFirstDefault rest

/-- `get_track_artists` (artists.py) as actually run: propagates the
categorization abort. -/
def get_track_artists_run (remote_artists : Option (List ArtistCredit)) :
    Except Unit TrackArtistsResult :=
  match remote_artists with
  | none => .ok ⟨"", none, [], [], some "", some "", some ""⟩
  | some [] => .ok ⟨"", none, [], [], some "", some "", some ""⟩
  | some l =>
    match (categorize_artists_run l).1 with
    | .error e => .error e
    | .ok bnc =>
      let r := get_artists bnc.1 bnc.2 false true
      .ok ⟨r.artist_string, r.artist_id, r.artists_names, r.artists_ids,
        joinOrNone bnc.1.arrangers, joinOrNone bnc.1.composers,
        joinOrNone bnc.1.lyricists⟩

/-- `get_album_artists` (artists.py) as actually run. -/
def get_album_artists_run (remote_artists : Option (List ArtistCredit))
    (comp : Bool) (include_featured_artists : Bool) :
    Except Unit AlbumArtistsResult :=
  match remote_artists with
  | none => .ok ⟨"", none, [], [], none⟩
  | some [] => .ok ⟨"", none, [], [], none⟩
  | some l =>
    match (categorize_artists_run l).1 with
    | .error e => .error e
    | .ok bnc =>
      let r := get_artists bnc.1 bnc.2 comp include_featured_artists
      .ok ⟨r.artist_string, r.artist_id, r.artists_names, r.artists_ids,
        get_label (some l)⟩

/-- `Mapper.track_info` as actually run: the artist extraction may raise;
every other field is computed as in the non-raising `track_info` (on the
`.ok` path the run's artist tuple is installed into the record, and the
remaining fields do not depend on the artist extraction). -/
def track_info_run (cfg : MapperConfig) (remote_song : SongForApiContract)
    (index : Option Nat) (media : Option String) (medium : Option Nat)
    (medium_index : Option Nat) (medium_total : Option Nat) :
    Except Unit TrackInfo :=
  (get_track_artists_run remote_song.artists).map fun r =>
    let base := track_info cfg remote_song index media medium medium_index
      medium_total
    { base with
      artist := r.artist_string
      artists := r.artists_names
      lyricist := r.lyricist
      composer := r.composer
      arranger := r.arranger
      artist_id := r.artist_id
      artists_ids := r.artists_ids }

/-- The inner loop of `Mapper.get_album_track_infos` for one disc's group as
actually run: a raising `track_info` aborts the whole album mapping. -/
def emitDisc_run (cfg : MapperConfig) (album_genre : Option String)
    (disc_name : Option String) (disc_number : Nat) (total : Nat) :
    List SongInAlbumForApiContract → Except Unit (List TrackInfo)
  | [] => .ok []
  | remote_song :: rest =>
    match remote_song.song with
    | none => emitDisc_run cfg album_genre disc_name disc_number total rest
    | some s =>
      match track_info_run cfg s (some remote_song.track_number) disc_name
          (some disc_number) (some remote_song.track_number) (some total) with
      | .error e => .error e
      | .ok t =>
        (emitDisc_run cfg album_genre disc_name disc_number total rest).map
          fun ts => fillGenre album_genre t :: ts

/-- The disc loop of `Mapper.get_album_track_infos` as actually run: the
disc lookup may raise `IndexError` and the track emission may raise
`AttributeError`; a video disc is skipped (after the lookup) without calling
`track_info`. -/
def tracksGo_run (cfg : MapperConfig)
    (remote_discs : List AlbumDiscPropertiesContract)
    (album_genre : Option String) :
    List (Nat × List SongInAlbumForApiContract) → Except Unit (List TrackInfo)
  | [] => .ok []
  | (disc_number, g) :: rest =>
    if g = [] then tracksGo_run cfg remote_discs album_genre rest
    else
      match pyDiscAt remote_discs disc_number with
      | none => .error ()
      | some remote_disc =>
        if remote_disc.media_type = .VIDEO ∧ cfg.ignore_video_tracks then
          tracksGo_run cfg remote_discs album_genre rest
        else
          match emitDisc_run cfg album_genre remote_disc.name disc_number
              g.length g with
          | .error e => .error e
          | .ok emitted =>
            (tracksGo_run cfg remote_discs album_genre rest).map
              fun ts => emitted ++ ts

/-- The artist credits reachable from one album-track entry: those of its
embedded song, when both are present. -/
def songCredits (s : SongInAlbumForApiContract) : List ArtistCredit :=
  (s.song.bind fun song => song.artists).getD []

/-- `Mapper.get_album_track_infos` (mapper.py) as actually run. -/
def get_album_track_infos_run (cfg : MapperConfig)
    (remote_songs : List SongInAlbumForApiContract)
    (remote_discs : List AlbumDiscPropertiesContract)
    (album_genre : Option String) : Except Unit (List TrackInfo) :=
  tracksGo_run cfg remote_discs album_genre
    (group_tracks_by_disc remote_songs)

/-- `Mapper.album_info` (mapper.py) as actually run: `.ok none` when the
album has no tracks (the Python `return` without value), `.error ()` when
track reconciliation or album-artist extraction raises, `.ok (some _)`
otherwise. -/
def album_info_run (cfg : MapperConfig)
    (remote_album : AlbumForApiContract) :
    Except Unit (Option AlbumInfo) :=
  if remote_album.tracks.isEmpty then .ok none
  else
    let remote_discs := effectiveDiscs remote_album
    let album_genre := get_genres remote_album.tags
    match get_album_track_infos_run cfg remote_album.tracks remote_discs
        album_genre with
    | .error e => .error e
    | .ok tracks =>
      let va : Bool := remote_album.disc_type = DiscType.COMPILATION
      let album_id := toString remote_album.id
      match get_album_artists_run remote_album.artists va
          cfg.include_featured_album_artists with
      | .error e => .error e
      | .ok r =>
        let va := if r.artist_string = VA_NAME then true else va
        .ok (some
          { tracks := tracks
            album := remote_album.name
            albumtype := (remote_album.disc_type.strValue).toLower
            albumtypes := [(remote_album.disc_type.strValue).toLower]
            asin := get_asin remote_album.web_links
            artist := r.artist_string
            artists := r.artists_names
            artists_ids := r.artists_ids
            catalognum := remote_album.catalog_number
            data_source := cfg.data_source
            day := remote_album.release_date.day
            label := r.label
            media := remote_discs.head?.bind fun d => d.name
            mediums := remote_discs.length
            month := remote_album.release_date.month
            va := va
            year := remote_album.release_date.year
            data_url := cfg.base_url ++ "Al/" ++ album_id
            album_id := album_id
            albumartist_id := r.artist_id })

/-! ## Helpers for stating properties -/

/-- Whether an `Except`-modelled computation returned without raising. -/
def pyOk {α : Type} : Except Unit α → Bool
  | .ok _ => true
  | .error _ => false

/-- The value of an `Except`-modelled computation, `none` when it raised. -/
def pyToOption {α : Type} : Except Unit α → Option α
  | .ok a => some a
  | .error _ => none

/-- The keys of an association list. -/
def keysOf (l : List (String × String)) : List String := l.map Prod.fst

/-- The value of the *last* entry of an association list holding a key. -/
def lastVal? : List (String × String) → String → Option String
  | [], _ => none
  | p :: rest, n =>
    match lastVal? rest n with
    | some v => some v
    | none => if p.1 = n then some p.2 else none

/-- First-occurrence de-duplication, continuing below a set of already-seen
keys. -/
def dedupFirstAux (seen : List String) : List String → List String
  | [] => []
  | x :: xs =>
    if x ∈ seen then dedupFirstAux seen xs
    else x :: dedupFirstAux (x :: seen) xs

/-- First-occurrence de-duplication of a list of keys. -/
def dedupFirst (l : List String) : List String := dedupFirstAux [] l

/-- Specification of the entries an insertion-ordered dict gains from a list
of assignments whose keys are not among `seen`: one entry per first key
occurrence, holding the *last* value assigned to that key. -/
def newEntries (seen : List String) : List (String × String) → List (String × String)
  | [] => []
  | p :: rest =>
    if p.1 ∈ seen then newEntries seen rest
    else (p.1, (lastVal? rest p.1).getD p.2) :: newEntries (p.1 :: seen) rest

/-! ## Concrete inputs used by the claims -/

/-- An `en`-locale Original lyrics variant. -/
def lyrEn : LyricsForSongContract :=
  { translation_type := .ORIGINAL, value := some "english text",
    culture_codes := some ["en"] }

/-- A `ja`-locale Original lyrics variant. -/
def lyrJa : LyricsForSongContract :=
  { translation_type := .ORIGINAL, value := some "japanese text",
    culture_codes := some ["ja"] }

/-- A locale-less Romanized lyrics variant. -/
def lyrRom : LyricsForSongContract :=
  { translation_type := .ROMANIZED, value := some "romanized text" }

/-- The three-variant list of the lyrics round-trip. -/
def lyricsThree : List LyricsForSongContract := [lyrEn, lyrJa, lyrRom]

/-- A non-disabled Amazon (JP) web link with a `/dp/` url. -/
def linkJP : WebLinkForApiContract :=
  { disabled := false, description := some "Amazon (JP)",
    url := some "https://x/dp/B000ABC123/ref" }

/-- The same link, disabled. -/
def linkJPDisabled : WebLinkForApiContract := { linkJP with disabled := true }

/-- The same link with the bare description `"Amazon"`. -/
def linkPlain : WebLinkForApiContract :=
  { linkJP with description := some "Amazon" }

/-- A credit matching no role bucket at all. -/
def creditOther : ArtistCredit :=
  { categories := [.OTHER], effective_roles := [], is_support := false,
    artist := some { id := 7, name := some "Someone" } }

/-- A Producer credit with effective roles `{Default}`. -/
def creditProdDefault : ArtistCredit :=
  { categories := [.PRODUCER], effective_roles := [.DEFAULT],
    is_support := false, artist := some { id := 1, name := some "ProducerP" } }

/-- A plain Producer credit named Alice. -/
def creditProdA : ArtistCredit :=
  { categories := [.PRODUCER], effective_roles := [], is_support := false,
    artist := some { id := 1, name := some "Alice" } }

/-- A plain Producer credit named Bob. -/
def creditProdB : ArtistCredit :=
  { categories := [.PRODUCER], effective_roles := [], is_support := false,
    artist := some { id := 2, name := some "Bob" } }

/-- A Circle-only credit. -/
def creditCircle : ArtistCredit :=
  { categories := [.CIRCLE], effective_roles := [], is_support := false,
    artist := some { id := 3, name := some "CircleC" } }

/-- A composer-role-only credit. -/
def creditComposer : ArtistCredit :=
  { categories := [.OTHER], effective_roles := [.COMPOSER],
    is_support := false, artist := some { id := 4, name := some "ComposerM" } }

/-- A Producer credit named N with artist id 1. -/
def creditProdN : ArtistCredit :=
  { categories := [.PRODUCER], effective_roles := [], is_support := false,
    artist := some { id := 1, name := some "N" } }

/-- A Vocalist credit named N with artist id 2. -/
def creditVocN : ArtistCredit :=
  { categories := [.VOCALIST], effective_roles := [], is_support := false,
    artist := some { id := 2, name := some "N" } }

/-- A mapper configuration with the VocaDB defaults. -/
def cfgC : MapperConfig :=
  { base_url := "https://vocadb.net/", data_source := "VocaDB",
    ignore_video_tracks := true, include_featured_album_artists := true,
    language_preference := .ENGLISH }

/-- A bare song record, id 11. -/
def songA : SongForApiContract := { id := 11, length_seconds := 100 }

/-- A bare song record, id 12. -/
def songB : SongForApiContract := { id := 12, length_seconds := 200 }

/-- Audio disc number 1. -/
def discAudio1 : AlbumDiscPropertiesContract :=
  { disc_number := 1, id := 0, media_type := .AUDIO_DISC, name := some "CD" }

/-- Audio disc number 2. -/
def discAudio2 : AlbumDiscPropertiesContract :=
  { disc_number := 2, id := 0, media_type := .AUDIO_DISC, name := some "CD" }

/-- A track list whose only track sits on disc 2. -/
def songsDisc2 : List SongInAlbumForApiContract :=
  [{ disc_number := 2, track_number := 1, song := some songA }]

/-- An album carrying `songsDisc2` but only one disc. -/
def albumDisc2 : AlbumForApiContract :=
  { disc_type := .ALBUM, id := 5, release_date := { is_empty := true },
    discs := [discAudio1], tracks := songsDisc2 }

/-- A song credited to a Producer with effective roles `{Default}`. -/
def songDefaultCredit : SongForApiContract :=
  { id := 13, length_seconds := 100, artists := some [creditProdDefault] }

/-- An in-range one-disc album whose only track's song carries the
Default-role Producer credit. -/
def albumDefaultCredit : AlbumForApiContract :=
  { disc_type := .ALBUM, id := 6, release_date := { is_empty := true },
    discs := [discAudio1],
    tracks := [⟨1, 1, some songDefaultCredit⟩] }

/-- Two discs with one track each, both numbered 1 on their disc. -/
def songsTwoDiscs : List SongInAlbumForApiContract :=
  [{ disc_number := 1, track_number := 1, song := some songA },
   { disc_number := 2, track_number := 1, song := some songB }]

/-- The two audio discs for `songsTwoDiscs`. -/
def discsTwo : List AlbumDiscPropertiesContract := [discAudio1, discAudio2]

/-- One disc whose single track is numbered 2. -/
def songsGap : List SongInAlbumForApiContract :=
  [{ disc_number := 1, track_number := 2, song := some songA }]

/-- The track list `Mapper.get_album_track_infos` emits for `songsTwoDiscs`. -/
def tracksTwoDiscs : List TrackInfo :=
  (pyToOption (get_album_track_infos cfgC songsTwoDiscs discsTwo none)).getD []

/-- The first emitted track of `tracksTwoDiscs`. -/
def trackTwoDiscsHead : TrackInfo := tracksTwoDiscs.headD {}

/-- The track list `Mapper.get_album_track_infos` emits for `songsGap`. -/
def tracksGap : List TrackInfo :=
  (pyToOption (get_album_track_infos cfgC songsGap [discAudio1] none)).getD []

/-- The first emitted track of `tracksGap`. -/
def trackGapHead : TrackInfo := tracksGap.headD {}

/-- A track whose lyrics-derived script/language are Latin/English. -/
def trkLatn : TrackInfo := { script := some "Latn", language := some "eng" }

/-- A track whose lyrics-derived script/language are Japanese. -/
def trkJpan : TrackInfo := { script := some "Jpan", language := some "jpn" }

/-! ## Theorems -/

/-- C8: for the variant list [en/Original, ja/Original, no-locale/Romanized],
preference Japanese selects `("Jpan", "jpn", ja text)`, preference English
selects `("Jpan", "jpn", en text)`, and preference Romaji selects
`("Jpan", "jpn", romanized text)`. -/
theorem c8_lyrics_round_trip :
    get_lyrics .JAPANESE (some lyricsThree)
      = (some "Jpan", some "jpn", some "japanese text")
    ∧ get_lyrics .ENGLISH (some lyricsThree)
      = (some "Jpan", some "jpn", some "english text")
    ∧ get_lyrics .ROMAJI (some lyricsThree)
      = (some "Jpan", some "jpn", some "romanized text") :=
  ⟨rfl, rfl, rfl⟩

/-- C4: the claim says a non-disabled link with description `"Amazon (JP)"`
and url `https://x/dp/B000ABC123/ref` yields `"B000ABC123"`, but
`utils.get_asin` returns nothing for it: the source regex
`Amazon( ((LE|RE|JP|US)).*)?$` lost the escaped parentheses that the sibling
implementations (`abc.py`, `__init__.py`) still have, so the parenthesised
suffix can never match.  The url capture itself works, as the bare
`"Amazon"` description shows, and a disabled link never matches. -/
theorem c4_asin_regex_drops_parenthesised_descriptions :
    get_asin (some [linkJP]) = none
    ∧ get_asin (some [linkJPDisabled]) = none
    ∧ get_asin (some [linkPlain]) = some "B000ABC123" :=
  ⟨rfl, rfl, rfl⟩

/-- A non-raising credit is not changed by the role expansion. -/
theorem updateCredit_of_not_raises (c : ArtistCredit)
    (hc : ¬ raisesOnDefault c) : updateCredit c = c := by
  unfold updateCredit
  rw [if_neg hc]

/-- A non-raising credit passes through the loop body unchanged. -/
theorem categorizeStep_credits_of_not_raises
    (acc : CategorizedArtists × List (String × String) × List ArtistCredit)
    (c : ArtistCredit) (hc : ¬ raisesOnDefault c) :
    (categorizeStep acc c).2.2 = acc.2.2 ++ [c] := by
  cases h : resolveNameId c
  · simp [categorizeStep, h]
  · simp [categorizeStep, h, updateCredit_of_not_raises c hc]

/-- Unfolding equation of the raising categorization loop on a cons cell. -/
theorem categorize_run_go_cons
    (acc : CategorizedArtists × List (String × String) × List ArtistCredit)
    (c : ArtistCredit) (rest : List ArtistCredit) :
    categorize_run_go acc (c :: rest)
      = if raisesOnDefault c then
          (.error (), acc.2.2 ++ updateCredit c :: rest)
        else categorize_run_go (categorizeStep acc c) rest := rfl

/-- Unfolding equation of `expandFirstDefault` on a cons cell. -/
theorem expandFirstDefault_cons (c : ArtistCredit)
    (rest : List ArtistCredit) :
    expandFirstDefault (c :: rest)
      = if raisesOnDefault c then updateCredit c :: rest
        else c :: expandFirstDefault rest := rfl

/-- The raising categorization loop leaves the credit list in the
`expandFirstDefault` state and returns normally exactly when no credit
raises. -/
theorem categorize_run_go_spec : ∀ (l : List ArtistCredit)
    (acc : CategorizedArtists × List (String × String) × List ArtistCredit),
    (categorize_run_go acc l).2 = acc.2.2 ++ expandFirstDefault l
    ∧ pyOk (categorize_run_go acc l).1
      = ! l.any fun c => decide (raisesOnDefault c) := by
  intro l
  induction l with
  | nil =>
    intro acc
    exact ⟨by simp [categorize_run_go, expandFirstDefault], rfl⟩
  | cons c rest ih =>
    intro acc
    rw [categorize_run_go_cons, expandFirstDefault_cons]
    by_cases hc : raisesOnDefault c
    · rw [if_pos hc, if_pos hc]
      refine ⟨rfl, ?_⟩
      rw [List.any_cons, decide_eq_true hc]
      rfl
    · rw [if_neg hc, if_neg hc]
      obtain ⟨h1, h2⟩ := ih (categorizeStep acc c)
      constructor
      · rw [h1, categorizeStep_credits_of_not_raises acc c hc]
        simp
      · rw [h2, List.any_cons, decide_eq_false hc]
        simp

/-- On a credit list without a raising credit, the faithful run returns the
non-raising idealization's buckets and not-creditable set. -/
theorem categorize_run_of_no_raise (l : List ArtistCredit)
    (h : ∀ c ∈ l, ¬ raisesOnDefault c) :
    (categorize_artists_run l).1 = .ok (categorize_artists l) := by
  have main : ∀ (l : List ArtistCredit)
      (acc : CategorizedArtists × List (String × String) × List ArtistCredit),
      (∀ c ∈ l, ¬ raisesOnDefault c) →
      (categorize_run_go acc l).1
        = .ok (applyBucketFallbacks (l.foldl categorizeStep acc).1,
            (l.foldl categorizeStep acc).2.1) := by
    intro l
    induction l with
    | nil => intro acc _; rfl
    | cons c rest ih =>
      intro acc hyp
      rw [categorize_run_go_cons,
        if_neg (hyp c (List.mem_cons_self c rest)), List.foldl_cons]
      exact ih (categorizeStep acc c)
        fun u hu => hyp u (List.mem_cons_of_mem _ hu)
  exact main l ({}, [], []) h

/-- C9 counterexample: `_categorize_artists` is not pure in its input — a
Producer credit whose effective roles are `{Default}` has its cached role
set expanded to `{Default, Arranger, Composer, Lyricist}` in place, the
post-call credit list differs from the input list, and the call itself
aborts with `AttributeError` (frozen msgspec contract). -/
theorem c9_counterexample_roles_mutated :
    (categorize_artists_run [creditProdDefault]).2
      = [{ creditProdDefault with
            effective_roles := [.DEFAULT, .ARRANGER, .COMPOSER, .LYRICIST] }]
    ∧ ArtistRoles.ARRANGER ∉ creditProdDefault.effective_roles
    ∧ (categorize_artists_run [creditProdDefault]).2 ≠ [creditProdDefault]
    ∧ pyOk (categorize_artists_run [creditProdDefault]).1 = false := by
  refine ⟨by decide, by decide, by decide, by decide⟩

/-- C9 (amended): categorization leaves every credit unchanged up to the
first resolvable Producer/Band credit whose effective roles contain
`Default`; that credit's cached role set gains
`{Arranger, Composer, Lyricist}` in place and the call then raises, leaving
all later credits untouched; a list with no such credit is returned entirely
unchanged and the call returns normally. -/
theorem c9_amended_first_default_expansion_then_raise
    (remote_artists : List ArtistCredit) :
    (categorize_artists_run remote_artists).2
      = expandFirstDefault remote_artists
    ∧ pyOk (categorize_artists_run remote_artists).1
      = ! remote_artists.any fun c => decide (raisesOnDefault c) := by
  obtain ⟨h1, h2⟩ := categorize_run_go_spec remote_artists ({}, [], [])
  constructor
  · show (categorize_run_go ({}, [], []) remote_artists).2
      = expandFirstDefault remote_artists
    simpa using h1
  · exact h2

/-- C10: with an absent or empty credit list `get_track_artists` returns the
empty *string* for the arranger, composer and lyricist fields, whereas for a
non-empty credit list each of those fields is `None` whenever its bucket is
still empty after the fallback chain. -/
theorem c10_track_artist_role_fields (l : List ArtistCredit) (hl : l ≠ []) :
    get_track_artists none = ⟨"", none, [], [], some "", some "", some ""⟩
    ∧ get_track_artists (some []) = ⟨"", none, [], [], some "", some "", some ""⟩
    ∧ ((categorize_artists l).1.arrangers = [] →
        (get_track_artists (some l)).arranger = none)
    ∧ ((categorize_artists l).1.composers = [] →
        (get_track_artists (some l)).composer = none)
    ∧ ((categorize_artists l).1.lyricists = [] →
        (get_track_artists (some l)).lyricist = none) := by
  match l with
  | [] => exact absurd rfl hl
  | x :: xs =>
    refine ⟨rfl, rfl, ?_, ?_, ?_⟩ <;> intro h <;>
      simp only [get_track_artists] <;> rw [h] <;> rfl

/-- C10 witness: a single credit with no role at all leaves every bucket
empty, and the arranger field of the result is `None`, not `""`. -/
theorem c10_witness :
    (categorize_artists [creditOther]).1.arrangers = []
    ∧ (get_track_artists (some [creditOther])).arranger = none :=
  ⟨by decide,
    (c10_track_artist_role_fields [creditOther] (by decide)).2.2.1 (by decide)⟩

/-- C3 counterexample: with `isCompilation = true` and two creditable
producer credits, the main-artists list is `[vaLabel, vaLabel]`, not the
single-element `[vaLabel]`, and the display string is
`"Various Artists, Various Artists"`, not `vaLabel`. -/
theorem c3_counterexample_va_repeated :
    mainArtistsOf (categorize_artists [creditProdA, creditProdB]).1
        (categorize_artists [creditProdA, creditProdB]).2 true
      = [VA_NAME, VA_NAME]
    ∧ [VA_NAME, VA_NAME] ≠ [VA_NAME]
    ∧ (get_album_artists (some [creditProdA, creditProdB]) true
        true).artist_string = "Various Artists, Various Artists"
    ∧ (get_album_artists (some [creditProdA, creditProdB]) true
        true).artist_string ≠ VA_NAME := by
  refine ⟨by decide, by decide, by decide, by decide⟩

/-- C3 (amended): with `isCompilation = true` the main-artists list is
`vaLabel` repeated once per creditable producer/circle credit, so the
display string before any featured suffix equals `vaLabel` exactly when that
count is 1 (or exceeds 5, which collapses the string). -/
theorem c3_amended_va_substituted_per_credit (b : CategorizedArtists)
    (nc : List (String × String))
    (hk : 0 < ((b.producers ++ b.circles).filter
      fun p => decide (p ∉ nc)).length) :
    mainArtistsOf b nc true
      = List.replicate
          ((b.producers ++ b.circles).filter fun p => decide (p ∉ nc)).length
          VA_NAME
    ∧ artistStringOf (mainArtistsOf b nc true)
      = (if ((b.producers ++ b.circles).filter
            fun p => decide (p ∉ nc)).length > 5
        then VA_NAME
        else String.intercalate ", "
          (List.replicate ((b.producers ++ b.circles).filter
            fun p => decide (p ∉ nc)).length VA_NAME)) := by
  have hmap : mainArtistsOf b nc true
      = List.replicate
        ((b.producers ++ b.circles).filter fun p => decide (p ∉ nc)).length
        VA_NAME := by
    unfold mainArtistsOf
    have : (((b.producers ++ b.circles).filter
        fun p => decide (p ∉ nc)).map fun p => if true then VA_NAME else p.1)
        = List.replicate
          ((b.producers ++ b.circles).filter fun p => decide (p ∉ nc)).length
          VA_NAME := by
      simp [List.map_const']
    rw [this]
    have hne : List.replicate
        ((b.producers ++ b.circles).filter fun p => decide (p ∉ nc)).length
        VA_NAME ≠ [] := by
      intro hcon
      have h0 := congrArg List.length hcon
      simp only [List.length_replicate, List.length_nil] at h0
      omega
    rw [if_neg hne]
  refine ⟨hmap, ?_⟩
  rw [hmap]
  unfold artistStringOf
  simp

/-- C3 witness: two creditable producer pairs give the two-element
`[vaLabel, vaLabel]` main-artists list. -/
theorem c3_witness :
    mainArtistsOf { producers := [("Alice", "1"), ("Bob", "2")] } [] true
      = List.replicate 2 VA_NAME :=
  by simpa using
    (c3_amended_va_substituted_per_credit
      { producers := [("Alice", "1"), ("Bob", "2")] } [] (by decide)).1

/-- Unfolding equation of `lastVal?` on a cons cell. -/
theorem lastVal?_cons (p : String × String) (rest : List (String × String))
    (n : String) :
    lastVal? (p :: rest) n
      = (match lastVal? rest n with
        | some v => some v
        | none => if p.1 = n then some p.2 else none) := rfl

/-- `lastVal?` skips a head entry with a different key. -/
theorem lastVal?_cons_ne (p : String × String) (rest : List (String × String))
    (n : String) (h : p.1 ≠ n) : lastVal? (p :: rest) n = lastVal? rest n := by
  rw [lastVal?_cons]
  cases lastVal? rest n
  · simp [h]
  · rfl

/-- `lastVal?` of the head key: the last later value, defaulting to the
head's own value. -/
theorem lastVal?_cons_self (p : String × String)
    (rest : List (String × String)) :
    lastVal? (p :: rest) p.1 = some ((lastVal? rest p.1).getD p.2) := by
  rw [lastVal?_cons]
  cases lastVal? rest p.1 <;> simp

/-- Unfolding equation of `newEntries` on a cons cell. -/
theorem newEntries_cons (seen : List String) (p : String × String)
    (rest : List (String × String)) :
    newEntries seen (p :: rest)
      = if p.1 ∈ seen then newEntries seen rest
        else (p.1, (lastVal? rest p.1).getD p.2)
          :: newEntries (p.1 :: seen) rest := rfl

/-- Unfolding equation of `dedupFirstAux` on a cons cell. -/
theorem dedupFirstAux_cons (seen : List String) (x : String)
    (xs : List String) :
    dedupFirstAux seen (x :: xs)
      = if x ∈ seen then dedupFirstAux seen xs
        else x :: dedupFirstAux (x :: seen) xs := rfl

/-- `Bool`-level membership test used by `dictUpd` agrees with `keysOf`. -/
theorem any_eq_mem_keysOf (d : List (String × String)) (k : String) :
    (d.any fun q => decide (q.1 = k)) = true ↔ k ∈ keysOf d := by
  simp [keysOf, List.any_eq_true, List.mem_map]

/-- An in-place update keeps the key list. -/
theorem keysOf_map_upd (d : List (String × String)) (p : String × String) :
    keysOf (d.map fun q => if q.1 = p.1 then (q.1, p.2) else q) = keysOf d := by
  simp only [keysOf, List.map_map]
  apply List.map_congr_left
  intro q _
  by_cases h : q.1 = p.1 <;> simp [Function.comp, h]

/-- `newEntries` only depends on the membership of `seen`. -/
theorem newEntries_congr (l : List (String × String)) :
    ∀ s₁ s₂, (∀ x, x ∈ s₁ ↔ x ∈ s₂) → newEntries s₁ l = newEntries s₂ l := by
  induction l with
  | nil => intro s₁ s₂ _; rfl
  | cons p rest ih =>
    intro s₁ s₂ hiff
    rw [newEntries_cons, newEntries_cons]
    by_cases h : p.1 ∈ s₁
    · rw [if_pos h, if_pos ((hiff _).mp h), ih _ _ hiff]
    · rw [if_neg h, if_neg fun hc => h ((hiff _).mpr hc)]
      rw [ih (p.1 :: s₁) (p.1 :: s₂) fun x => by simp [hiff x]]

/-- Keys surviving `dedupFirstAux` were not among the already-seen keys. -/
theorem mem_dedupFirstAux (l : List String) :
    ∀ seen n, n ∈ dedupFirstAux seen l → n ∉ seen := by
  induction l with
  | nil => intro seen n hn; simp [dedupFirstAux] at hn
  | cons x xs ih =>
    intro seen n hn
    rw [dedupFirstAux_cons] at hn
    by_cases hx : x ∈ seen
    · rw [if_pos hx] at hn; exact ih seen n hn
    · rw [if_neg hx] at hn
      rcases List.mem_cons.mp hn with rfl | hn
      · exact hx
      · intro hs; exact ih (x :: seen) n hn (List.mem_cons_of_mem _ hs)

/-- Closed form of `newEntries`: first-occurrence keys, each holding the last
value assigned to it. -/
theorem newEntries_eq (pairs : List (String × String)) :
    ∀ seen, newEntries seen pairs
      = (dedupFirstAux seen (keysOf pairs)).map
          fun n => (n, (lastVal? pairs n).getD "") := by
  induction pairs with
  | nil => intro seen; rfl
  | cons p rest ih =>
    intro seen
    rw [newEntries_cons]
    have hkeys : keysOf (p :: rest) = p.1 :: keysOf rest := rfl
    rw [hkeys, dedupFirstAux_cons]
    by_cases h : p.1 ∈ seen
    · rw [if_pos h, if_pos h, ih seen]
      apply List.map_congr_left
      intro n hn
      have hne : p.1 ≠ n := fun hc => mem_dedupFirstAux _ _ _ hn (hc ▸ h)
      rw [lastVal?_cons_ne _ _ _ hne]
    · rw [if_neg h, if_neg h]
      simp only [List.map_cons]
      congr 1
      · rw [lastVal?_cons_self]
        rfl
      · rw [ih (p.1 :: seen)]
        apply List.map_congr_left
        intro n hn
        have hne : p.1 ≠ n := by
          intro hc
          exact mem_dedupFirstAux _ _ _ hn (by simp [hc])
        rw [lastVal?_cons_ne _ _ _ hne]

/-- Closed form of the ordered-dict fold of
`_extract_artists_from_categories`: existing entries keep their position and
take the last value assigned to their key; unseen keys are appended at their
first occurrence, also with their last value. -/
theorem foldl_dictUpd_eq (pairs : List (String × String)) :
    ∀ d, pairs.foldl dictUpd d
      = d.map (fun q => (q.1, (lastVal? pairs q.1).getD q.2))
        ++ newEntries (keysOf d) pairs := by
  induction pairs with
  | nil =>
    intro d
    simp [lastVal?, newEntries]
  | cons p rest ih =>
    intro d
    rw [List.foldl_cons, ih (dictUpd d p)]
    unfold dictUpd
    by_cases h : p.1 ∈ keysOf d
    · rw [if_pos ((any_eq_mem_keysOf d p.1).mpr h)]
      rw [keysOf_map_upd, List.map_map]
      have hmap : d.map
            ((fun q => (q.1, (lastVal? rest q.1).getD q.2))
              ∘ fun q => if q.1 = p.1 then (q.1, p.2) else q)
          = d.map fun q => (q.1, (lastVal? (p :: rest) q.1).getD q.2) := by
        apply List.map_congr_left
        intro q _
        by_cases hq : q.1 = p.1
        · simp only [Function.comp, if_pos hq]
          rw [lastVal?_cons]
          cases hlv : lastVal? rest q.1 <;> simp [hlv, hq.symm]
        · simp only [Function.comp, if_neg hq]
          rw [lastVal?_cons_ne _ _ _ fun hc => hq hc.symm]
      rw [hmap]
      congr 1
      rw [newEntries_cons, if_pos h]
    · rw [if_neg fun hc => h ((any_eq_mem_keysOf d p.1).mp hc)]
      have hkeys : keysOf (d ++ [p]) = keysOf d ++ [p.1] := by
        simp [keysOf]
      rw [hkeys, List.map_append]
      have hmap : d.map (fun q => (q.1, (lastVal? rest q.1).getD q.2))
          = d.map fun q => (q.1, (lastVal? (p :: rest) q.1).getD q.2) := by
        apply List.map_congr_left
        intro q hq
        have hne : p.1 ≠ q.1 := by
          intro hc
          exact h (hc ▸ List.mem_map_of_mem Prod.fst hq)
        rw [lastVal?_cons_ne _ _ _ hne]
      rw [hmap]
      rw [newEntries_cons, if_neg h]
      rw [newEntries_congr rest (keysOf d ++ [p.1]) (p.1 :: keysOf d)
        fun x => by simp [or_comm]]
      simp

/-- C5 (amended): `allArtistNames`/`allArtistIds` merge the six buckets in
the `ProcessedArtistCategories` definition order producers, composers,
arrangers, lyricists, circles, vocalists; a duplicate name keeps its first
position but takes the *last* id assigned to it. -/
theorem c5_amended_merge_order_and_last_id (b : CategorizedArtists) :
    (extract_artists_from_categories b).1 = dedupFirst (keysOf (bucketPairs b))
    ∧ (extract_artists_from_categories b).2
      = (dedupFirst (keysOf (bucketPairs b))).map
          fun n => (lastVal? (bucketPairs b) n).getD "" := by
  have h := foldl_dictUpd_eq (bucketPairs b) []
  rw [newEntries_eq] at h
  simp only [List.map_nil, List.nil_append] at h
  have hk : keysOf ([] : List (String × String)) = [] := rfl
  rw [hk] at h
  have hfst : (Prod.fst ∘ fun n => (n, (lastVal? (bucketPairs b) n).getD ""))
      = id := funext fun n => rfl
  have hsnd : (Prod.snd ∘ fun n => (n, (lastVal? (bucketPairs b) n).getD ""))
      = fun n => (lastVal? (bucketPairs b) n).getD "" := funext fun n => rfl
  constructor
  · show ((bucketPairs b).foldl dictUpd []).map Prod.fst = _
    rw [h, List.map_map, hfst, List.map_id]
    rfl
  · show ((bucketPairs b).foldl dictUpd []).map Prod.snd = _
    rw [h, List.map_map, hsnd]
    rfl

/-- C5 counterexample: a circle-only credit followed by a composer-only
credit is merged as [composer, circle] (the enum order puts composers before
circles), not in the claimed producers-circles-vocalists-arrangers-
composers-lyricists order; and a name appearing as producer (id 1) and
vocalist (id 2) ends with id "2" - the last occurrence wins, not the first. -/
theorem c5_counterexample_order_and_first_id :
    (get_track_artists (some [creditCircle, creditComposer])).artists_names
      = ["ComposerM", "CircleC"]
    ∧ ["ComposerM", "CircleC"] ≠ ["CircleC", "ComposerM"]
    ∧ (get_track_artists (some [creditProdN, creditVocN])).artists_names = ["N"]
    ∧ (get_track_artists (some [creditProdN, creditVocN])).artists_ids = ["2"]
    ∧ (["2"] : List String) ≠ ["1"] := by
  refine ⟨by decide, by decide, by decide, by decide, by decide⟩


/-- One lyrics-selection step only ever writes the scripts `"Latn"`/`"Jpan"`
and languages `"eng"`/`"jpn"` (or keeps the state). -/
theorem lyricsStep_components (pref : ContentLanguagePreference)
    (acc : Option String × Option String × Option String)
    (c : LyricsForSongContract) :
    ((lyricsStep pref acc c).1 = acc.1 ∨ (lyricsStep pref acc c).1 = some "Latn"
      ∨ (lyricsStep pref acc c).1 = some "Jpan")
    ∧ ((lyricsStep pref acc c).2.1 = acc.2.1
      ∨ (lyricsStep pref acc c).2.1 = some "eng"
      ∨ (lyricsStep pref acc c).2.1 = some "jpn") := by
  unfold lyricsStep
  by_cases h0 : cultureEnJa c = []
  · rw [if_pos h0]
    split_ifs <;> simp
  · rw [if_neg h0]
    by_cases h1 : "en" ∈ cultureEnJa c
    · rw [if_pos h1]
      split_ifs <;> simp
    · rw [if_neg h1]
      by_cases h2 : "ja" ∈ cultureEnJa c
      · rw [if_pos h2]
        split_ifs <;> simp
      · rw [if_neg h2]
        simp

/-- The lyrics selector never returns the `"Qaaa"`/`"mul"` sentinels: its
script is `None`, `"Latn"` or `"Jpan"` and its language `None`, `"eng"` or
`"jpn"`. -/
theorem get_lyrics_no_sentinels (pref : ContentLanguagePreference)
    (remote : Option (List LyricsForSongContract)) :
    (get_lyrics pref remote).1 ≠ some "Qaaa"
    ∧ (get_lyrics pref remote).2.1 ≠ some "mul" := by
  have hfold : ∀ (l : List LyricsForSongContract)
      (acc : Option String × Option String × Option String),
      acc.1 ≠ some "Qaaa" → acc.2.1 ≠ some "mul" →
      (l.foldl (lyricsStep pref) acc).1 ≠ some "Qaaa"
        ∧ (l.foldl (lyricsStep pref) acc).2.1 ≠ some "mul" := by
    intro l
    induction l with
    | nil => intro acc h1 h2; exact ⟨h1, h2⟩
    | cons c rest ih =>
      intro acc h1 h2
      rw [List.foldl_cons]
      have hc := lyricsStep_components pref acc c
      refine ih _ ?_ ?_
      · rcases hc.1 with h | h | h <;> rw [h] <;> simp [h1]
      · rcases hc.2 with h | h | h <;> rw [h] <;> simp [h2]
  match remote with
  | none => exact ⟨by simp [get_lyrics], by simp [get_lyrics]⟩
  | some [] => exact ⟨by simp [get_lyrics], by simp [get_lyrics]⟩
  | some (c :: l) =>
    have h := hfold (c :: l) (none, none, none) (by simp) (by simp)
    constructor
    · show (if pyTruthy ((c :: l).foldl (lyricsStep pref) (none, none, none)).2.2
          then (c :: l).foldl (lyricsStep pref) (none, none, none)
          else (((c :: l).foldl (lyricsStep pref) (none, none, none)).1,
            ((c :: l).foldl (lyricsStep pref) (none, none, none)).2.1,
            get_fallback_lyrics pref (c :: l))).1 ≠ some "Qaaa"
      split <;> exact h.1
    · show (if pyTruthy ((c :: l).foldl (lyricsStep pref) (none, none, none)).2.2
          then (c :: l).foldl (lyricsStep pref) (none, none, none)
          else (((c :: l).foldl (lyricsStep pref) (none, none, none)).1,
            ((c :: l).foldl (lyricsStep pref) (none, none, none)).2.1,
            get_fallback_lyrics pref (c :: l))).2.1 ≠ some "mul"
      split <;> exact h.2

/-- Tracks built by `Mapper.track_info` never carry the sentinels, so the
hypothesis of the unification theorem holds for every reconciled track. -/
theorem track_info_no_sentinels (cfg : MapperConfig)
    (song : SongForApiContract) (i : Option Nat) (m : Option String)
    (md mi mt : Option Nat) :
    (track_info cfg song i m md mi mt).script ≠ some "Qaaa"
    ∧ (track_info cfg song i m md mi mt).language ≠ some "mul" :=
  get_lyrics_no_sentinels cfg.language_preference song.lyrics

/-- A track without a truthy script leaves the running pair unchanged. -/
theorem unifyStep_not_truthy (sl : Option String × Option String)
    (t : TrackInfo) (h : ¬ pyTruthy t.script = true) : unifyStep sl t = sl := by
  unfold unifyStep
  rw [if_neg fun hc => h hc.1]

/-- A `"Qaaa"` running script absorbs every further track. -/
theorem unifyStep_qaaa (sl : Option String × Option String) (t : TrackInfo)
    (h : sl.1 = some "Qaaa") : unifyStep sl t = sl := by
  unfold unifyStep
  rw [if_neg fun hc => hc.2 h]

/-- The first truthy script seeds the running pair. -/
theorem unifyStep_seed (t : TrackInfo) (h : pyTruthy t.script = true) :
    unifyStep (none, none) t = (t.script, t.language) := by
  unfold unifyStep
  rw [if_pos ⟨h, by simp⟩, if_pos (by decide)]

/-- A truthy script equal to the seeded one changes nothing. -/
theorem unifyStep_same (s l : Option String) (t : TrackInfo)
    (hs : pyTruthy s = true) (hq : s ≠ some "Qaaa") (he : t.script = s)
    (htr : pyTruthy t.script = true) : unifyStep (s, l) t = (s, l) := by
  unfold unifyStep
  rw [if_pos ⟨htr, hq⟩, if_neg fun hc => hc hs, if_neg fun hc => hc he.symm]

/-- A truthy script different from the seeded one flips the pair. -/
theorem unifyStep_diff (s l : Option String) (t : TrackInfo)
    (hs : pyTruthy s = true) (hq : s ≠ some "Qaaa") (hne : t.script ≠ s)
    (htr : pyTruthy t.script = true) :
    unifyStep (s, l) t = (some "Qaaa", some "mul") := by
  unfold unifyStep
  rw [if_pos ⟨htr, hq⟩, if_neg fun hc => hc hs, if_pos fun hc => hne hc.symm]

/-- Once the running script has flipped to `"Qaaa"` it never changes again. -/
theorem unify_foldl_absorb (ts : List TrackInfo) (l : Option String) :
    ts.foldl unifyStep (some "Qaaa", l) = (some "Qaaa", l) := by
  induction ts with
  | nil => rfl
  | cons t rest ih =>
    rw [List.foldl_cons, unifyStep_qaaa _ _ rfl, ih]

/-- After seeding with a truthy, non-`"Qaaa"` script, the fold keeps the
seed exactly when every later truthy script agrees with it, and otherwise
flips to the `("Qaaa", "mul")` pair. -/
theorem unify_foldl_seeded (ts : List TrackInfo) :
    ∀ s l, pyTruthy s = true → s ≠ some "Qaaa" →
    ts.foldl unifyStep (s, l)
      = if ∀ t ∈ ts, pyTruthy t.script = true → t.script = s then (s, l)
        else (some "Qaaa", some "mul") := by
  induction ts with
  | nil =>
    intro s l _ _
    simp
  | cons t rest ih =>
    intro s l hs hq
    rw [List.foldl_cons]
    by_cases ht : pyTruthy t.script = true
    · by_cases he : t.script = s
      · rw [unifyStep_same s l t hs hq he ht, ih s l hs hq]
        have hcond : (∀ u ∈ rest, pyTruthy u.script = true → u.script = s)
            ↔ (∀ u ∈ t :: rest, pyTruthy u.script = true → u.script = s) := by
          rw [List.forall_mem_cons]
          simp [he]
        exact if_congr hcond rfl rfl
      · rw [unifyStep_diff s l t hs hq he ht, unify_foldl_absorb]
        rw [if_neg fun hc => he (hc t (List.mem_cons_self t rest) ht)]
    · rw [unifyStep_not_truthy _ _ ht, ih s l hs hq]
      have hcond : (∀ u ∈ rest, pyTruthy u.script = true → u.script = s)
          ↔ (∀ u ∈ t :: rest, pyTruthy u.script = true → u.script = s) := by
        rw [List.forall_mem_cons]
        simp [ht]
      exact if_congr hcond rfl rfl

/-- The running pair computed from the initial `(None, None)` state: `None`
with no truthy script, the first truthy script/language if all truthy
scripts agree, and the `("Qaaa", "mul")` sentinels otherwise (for track
lists whose own scripts are never the sentinel). -/
theorem unify_foldl_initial (ts : List TrackInfo)
    (h : ∀ t ∈ ts, t.script ≠ some "Qaaa") :
    ts.foldl unifyStep (none, none)
      = (match ts.find? fun t => pyTruthy t.script with
        | none => (none, none)
        | some t0 =>
          if ∀ t ∈ ts, pyTruthy t.script = true → t.script = t0.script
          then (t0.script, t0.language)
          else (some "Qaaa", some "mul")) := by
  induction ts with
  | nil => rfl
  | cons t rest ih =>
    rw [List.foldl_cons]
    by_cases ht : pyTruthy t.script = true
    · have hfind : ((t :: rest).find? fun u => pyTruthy u.script) = some t := by
        simp [List.find?_cons, ht]
      rw [unifyStep_seed t ht, hfind,
        unify_foldl_seeded rest t.script t.language ht
          (h t (List.mem_cons_self t rest))]
      have hcond : (∀ u ∈ rest, pyTruthy u.script = true → u.script = t.script)
          ↔ (∀ u ∈ t :: rest, pyTruthy u.script = true → u.script = t.script) := by
        rw [List.forall_mem_cons]
        simp
      exact if_congr hcond rfl rfl
    · have hfind : ((t :: rest).find? fun u => pyTruthy u.script)
          = rest.find? fun u => pyTruthy u.script := by
        simp [List.find?_cons, ht]
      rw [unifyStep_not_truthy _ _ ht, hfind,
        ih fun u hu => h u (List.mem_cons_of_mem _ hu)]
      cases hf : rest.find? fun u => pyTruthy u.script with
      | none => rfl
      | some t0 =>
        have hcond : (∀ u ∈ rest, pyTruthy u.script = true → u.script = t0.script)
            ↔ (∀ u ∈ t :: rest, pyTruthy u.script = true → u.script = t0.script) := by
          rw [List.forall_mem_cons]
          simp [ht]
        exact if_congr hcond rfl rfl

/-- C1: over a reconciled track list none of whose tracks already carries
the sentinels, the running script flips to `"Qaaa"` exactly when two tracks
have truthy, differing scripts; when it flips, every emitted track is
overwritten with the `("Qaaa", "mul")` pair; when it does not flip, the
tracks are returned unchanged and the running script/language are those of
the first track with a truthy script. -/
theorem c1_script_language_unification (ts : List TrackInfo)
    (h : ∀ t ∈ ts, t.script ≠ some "Qaaa" ∧ t.language ≠ some "mul") :
    ((legacy_unify ts).2.1 = some "Qaaa" ↔
      ∃ t ∈ ts, ∃ u ∈ ts, pyTruthy t.script = true ∧ pyTruthy u.script = true
        ∧ t.script ≠ u.script)
    ∧ ((legacy_unify ts).2.1 = some "Qaaa" →
        (legacy_unify ts).1 = ts.map fun t =>
          { t with script := some "Qaaa", language := some "mul" })
    ∧ ((legacy_unify ts).2.1 ≠ some "Qaaa" →
        (legacy_unify ts).1 = ts
        ∧ (legacy_unify ts).2.1
            = (ts.find? fun t => pyTruthy t.script).bind (fun t => t.script)
        ∧ (legacy_unify ts).2.2
            = (ts.find? fun t => pyTruthy t.script).bind fun t => t.language) := by
  have hfold := unify_foldl_initial ts fun t ht => (h t ht).1
  cases hf : ts.find? fun t => pyTruthy t.script with
  | none =>
    rw [hf] at hfold
    replace hfold : ts.foldl unifyStep (none, none) = (none, none) := hfold
    have h21 : (legacy_unify ts).2.1 = none := by simp [legacy_unify, hfold]
    have h22 : (legacy_unify ts).2.2 = none := by simp [legacy_unify, hfold]
    have hout : (legacy_unify ts).1 = ts := by simp [legacy_unify, hfold]
    refine ⟨?_, ?_, ?_⟩
    · rw [h21]
      constructor
      · intro hc
        cases hc
      · rintro ⟨t, ht, u, hu, htr, hutr, hne⟩
        have := List.find?_eq_none.mp hf t ht
        simp [htr] at this
    · intro hc
      rw [h21] at hc
      cases hc
    · intro _
      exact ⟨hout, by rw [h21]; rfl, by rw [h22]; rfl⟩
  | some t0 =>
    have ht0mem : t0 ∈ ts := List.mem_of_find?_eq_some hf
    have ht0tr : pyTruthy t0.script = true := by
      have := List.find?_some hf
      simpa using this
    have ht0q : t0.script ≠ some "Qaaa" := (h t0 ht0mem).1
    have ht0m : t0.language ≠ some "mul" := (h t0 ht0mem).2
    rw [hf] at hfold
    replace hfold : ts.foldl unifyStep (none, none)
        = if ∀ t ∈ ts, pyTruthy t.script = true → t.script = t0.script
          then (t0.script, t0.language) else (some "Qaaa", some "mul") := hfold
    by_cases hall : ∀ t ∈ ts, pyTruthy t.script = true → t.script = t0.script
    · rw [if_pos hall] at hfold
      have h21 : (legacy_unify ts).2.1 = t0.script := by
        simp [legacy_unify, hfold, ht0q, ht0m]
      have h22 : (legacy_unify ts).2.2 = t0.language := by
        simp [legacy_unify, hfold, ht0q, ht0m]
      have hout : (legacy_unify ts).1 = ts := by
        simp [legacy_unify, hfold, ht0q, ht0m]
      refine ⟨?_, ?_, ?_⟩
      · rw [h21]
        constructor
        · intro hc
          exact absurd hc ht0q
        · rintro ⟨t, ht, u, hu, htr, hutr, hne⟩
          exact absurd ((hall t ht htr).trans (hall u hu hutr).symm) hne
      · intro hc
        rw [h21] at hc
        exact absurd hc ht0q
      · intro _
        exact ⟨hout, by rw [h21]; rfl, by rw [h22]; rfl⟩
    · rw [if_neg hall] at hfold
      have h21 : (legacy_unify ts).2.1 = some "Qaaa" := by
        simp [legacy_unify, hfold]
      have hout : (legacy_unify ts).1 = ts.map fun t =>
          { t with script := some "Qaaa", language := some "mul" } := by
        simp [legacy_unify, hfold]
      refine ⟨?_, fun _ => hout, ?_⟩
      · rw [h21]
        simp only [true_iff]
        push_neg at hall
        obtain ⟨u, hu, hutr, hune⟩ := hall
        exact ⟨t0, ht0mem, u, hu, ht0tr, hutr, fun hc => hune hc.symm⟩
      · intro hc
        rw [h21] at hc
        exact absurd rfl hc

/-- C1 witness: three tracks with scripts [Latn, Jpan, Latn] all end with
script `"Qaaa"` and language `"mul"` after the unification pass. -/
theorem c1_witness :
    (legacy_unify [trkLatn, trkJpan, trkLatn]).1
      = [trkLatn, trkJpan, trkLatn].map (fun t =>
          { t with script := some "Qaaa", language := some "mul" }) :=
  (c1_script_language_unification [trkLatn, trkJpan, trkLatn]
    (by decide)).2.1 (by decide)

/-- Unfolding equation of the disc loop on a cons cell. -/
theorem tracksGo_cons (cfg : MapperConfig)
    (discs : List AlbumDiscPropertiesContract) (genre : Option String)
    (dn : Nat) (g : List SongInAlbumForApiContract)
    (rest : List (Nat × List SongInAlbumForApiContract)) :
    tracksGo cfg discs genre ((dn, g) :: rest)
      = if g = [] then tracksGo cfg discs genre rest
        else
          match pyDiscAt discs dn with
          | none => .error ()
          | some remote_disc =>
            (tracksGo cfg discs genre rest).map fun ts =>
              (if remote_disc.media_type = .VIDEO ∧ cfg.ignore_video_tracks
                then []
                else emitDisc cfg genre remote_disc.name dn g.length g) ++ ts
    := rfl

/-- `pyOk` ignores `Except.map`. -/
theorem pyOk_map {α β : Type} (f : α → β) (e : Except Unit α) :
    pyOk (e.map f) = pyOk e := by
  cases e <;> rfl

/-- `fillGenre` only touches the genre field. -/
theorem fillGenre_fields (g : Option String) (t : TrackInfo) :
    (fillGenre g t).index = t.index ∧ (fillGenre g t).medium = t.medium
    ∧ (fillGenre g t).medium_index = t.medium_index
    ∧ (fillGenre g t).medium_total = t.medium_total := by
  unfold fillGenre
  split <;> exact ⟨rfl, rfl, rfl, rfl⟩

/-- Every track emitted for one disc group comes from a member with an
embedded song, mapped with the group's disc number, track number and size. -/
theorem emitDisc_mem (cfg : MapperConfig) (genre : Option String)
    (name : Option String) (dn total : Nat)
    (g : List SongInAlbumForApiContract) (t : TrackInfo)
    (ht : t ∈ emitDisc cfg genre name dn total g) :
    ∃ s ∈ g, ∃ song, s.song = some song
      ∧ t = fillGenre genre
          (track_info cfg song (some s.track_number) name (some dn)
            (some s.track_number) (some total)) := by
  unfold emitDisc at ht
  rw [List.mem_filterMap] at ht
  obtain ⟨s, hs, hf⟩ := ht
  cases hsong : s.song with
  | none => rw [hsong] at hf; simp at hf
  | some song =>
    rw [hsong] at hf
    simp only [Option.map_some'] at hf
    exact ⟨s, hs, song, hsong, (Option.some.inj hf).symm⟩

/-- Every key of a `groupby` run is the disc number of some input song. -/
theorem runsByDisc_key (l : List SongInAlbumForApiContract) :
    ∀ p ∈ runsByDisc l, ∃ s ∈ l, s.disc_number = p.1 := by
  induction l with
  | nil => intro p hp; simp [runsByDisc] at hp
  | cons s rest ih =>
    intro p hp
    unfold runsByDisc at hp
    cases hr : runsByDisc rest with
    | nil =>
      rw [hr] at hp
      rcases List.mem_singleton.mp hp with rfl
      exact ⟨s, List.mem_cons_self s rest, rfl⟩
    | cons q more =>
      obtain ⟨k, g⟩ := q
      rw [hr] at hp
      replace hp : p ∈ (if s.disc_number = k then (k, s :: g) :: more
          else (s.disc_number, [s]) :: (k, g) :: more) := hp
      by_cases he : s.disc_number = k
      · rw [if_pos he] at hp
        rcases List.mem_cons.mp hp with rfl | hp
        · exact ⟨s, List.mem_cons_self s rest, he⟩
        · obtain ⟨u, hu, hq⟩ := ih p (hr ▸ List.mem_cons_of_mem (k, g) hp)
          exact ⟨u, List.mem_cons_of_mem _ hu, hq⟩
      · rw [if_neg he] at hp
        rcases List.mem_cons.mp hp with rfl | hp
        · exact ⟨s, List.mem_cons_self s rest, rfl⟩
        · obtain ⟨u, hu, hq⟩ := ih p (hr ▸ hp)
          exact ⟨u, List.mem_cons_of_mem _ hu, hq⟩

/-- Dict assignment only introduces entries that were present or assigned. -/
theorem dictInsertDisc_mem (d : List (Nat × List SongInAlbumForApiContract))
    (k : Nat) (v : List SongInAlbumForApiContract)
    (p : Nat × List SongInAlbumForApiContract)
    (hp : p ∈ dictInsertDisc d k v) : p ∈ d ∨ p = (k, v) := by
  unfold dictInsertDisc at hp
  split at hp
  · rw [List.mem_map] at hp
    obtain ⟨q, hq, hqe⟩ := hp
    by_cases hk : q.1 = k
    · rw [if_pos hk] at hqe
      exact Or.inr hqe.symm
    · rw [if_neg hk] at hqe
      exact Or.inl (hqe ▸ hq)
  · rcases List.mem_append.mp hp with hp | hp
    · exact Or.inl hp
    · exact Or.inr (List.mem_singleton.mp hp)

/-- Every entry of the grouped dict is one of the `groupby` runs. -/
theorem group_tracks_by_disc_mem (songs : List SongInAlbumForApiContract)
    (p : Nat × List SongInAlbumForApiContract)
    (hp : p ∈ group_tracks_by_disc songs) :
    ∃ s ∈ songs, s.disc_number = p.1 := by
  have main : ∀ (l d : List (Nat × List SongInAlbumForApiContract)),
      p ∈ l.foldl (fun d q => dictInsertDisc d q.1 q.2) d → p ∈ d ∨ p.1 ∈ l.map Prod.fst := by
    intro l
    induction l with
    | nil => intro d hd; exact Or.inl hd
    | cons q rest ih =>
      intro d hd
      rw [List.foldl_cons] at hd
      rcases ih _ hd with hin | hin
      · rcases dictInsertDisc_mem d q.1 q.2 p hin with hin | rfl
        · exact Or.inl hin
        · exact Or.inr (List.mem_cons_self _ _)
      · exact Or.inr (List.mem_cons_of_mem _ hin)
  rcases main (runsByDisc songs) [] hp with hin | hin
  · simp at hin
  · rw [List.mem_map] at hin
    obtain ⟨q, hq, hqe⟩ := hin
    obtain ⟨s, hs, hsd⟩ := runsByDisc_key songs q hq
    exact ⟨s, hs, by rw [hsd, hqe]⟩

/-- Run members of a `groupby` run are input songs. -/
theorem runsByDisc_values (l : List SongInAlbumForApiContract) :
    ∀ p ∈ runsByDisc l, ∀ s ∈ p.2, s ∈ l := by
  induction l with
  | nil => intro p hp; simp [runsByDisc] at hp
  | cons s rest ih =>
    intro p hp u hu
    unfold runsByDisc at hp
    cases hr : runsByDisc rest with
    | nil =>
      rw [hr] at hp
      replace hp : p ∈ [(s.disc_number, [s])] := hp
      rcases List.mem_singleton.mp hp with rfl
      replace hu : u ∈ [s] := hu
      exact List.mem_cons.mpr (Or.inl (List.mem_singleton.mp hu))
    | cons q more =>
      obtain ⟨k, g⟩ := q
      rw [hr] at hp
      replace hp : p ∈ (if s.disc_number = k then (k, s :: g) :: more
          else (s.disc_number, [s]) :: (k, g) :: more) := hp
      by_cases he : s.disc_number = k
      · rw [if_pos he] at hp
        rcases List.mem_cons.mp hp with rfl | hp
        · rcases List.mem_cons.mp hu with rfl | hu
          · exact List.mem_cons_self u rest
          · exact List.mem_cons_of_mem _
              (ih (k, g) (hr ▸ List.mem_cons_self _ _) u hu)
        · exact List.mem_cons_of_mem _
            (ih p (hr ▸ List.mem_cons_of_mem (k, g) hp) u hu)
      · rw [if_neg he] at hp
        rcases List.mem_cons.mp hp with rfl | hp
        · rcases List.mem_singleton.mp hu with rfl
          exact List.mem_cons_self u rest
        · exact List.mem_cons_of_mem _ (ih p (hr ▸ hp) u hu)

/-- Every entry of the grouped dict is itself one of the `groupby` runs. -/
theorem group_mem_runs (songs : List SongInAlbumForApiContract)
    (p : Nat × List SongInAlbumForApiContract)
    (hp : p ∈ group_tracks_by_disc songs) : p ∈ runsByDisc songs := by
  have main : ∀ (l d : List (Nat × List SongInAlbumForApiContract)),
      p ∈ l.foldl (fun d q => dictInsertDisc d q.1 q.2) d → p ∈ d ∨ p ∈ l := by
    intro l
    induction l with
    | nil => intro d hd; exact Or.inl hd
    | cons q rest ih =>
      intro d hd
      rw [List.foldl_cons] at hd
      rcases ih _ hd with hin | hin
      · rcases dictInsertDisc_mem d q.1 q.2 p hin with hin | heq
        · exact Or.inl hin
        · exact Or.inr (heq ▸ List.mem_cons_self _ _)
      · exact Or.inr (List.mem_cons_of_mem _ hin)
  rcases main (runsByDisc songs) [] hp with hin | hin
  · simp at hin
  · exact hin

/-- Songs collected into a disc group are input songs. -/
theorem group_tracks_by_disc_values (songs : List SongInAlbumForApiContract)
    (p : Nat × List SongInAlbumForApiContract)
    (hp : p ∈ group_tracks_by_disc songs) : ∀ s ∈ p.2, s ∈ songs :=
  fun s hs => runsByDisc_values songs p (group_mem_runs songs p hp) s hs

/-- The categorization run returns normally on a credit list without a
raising credit (`pyOk` form). -/
theorem categorize_run_pyOk (l : List ArtistCredit)
    (h : ∀ c ∈ l, ¬ raisesOnDefault c) :
    pyOk (categorize_artists_run l).1 = true := by
  have h2 := (categorize_run_go_spec l ({}, [], [])).2
  have hany : (l.any fun c => decide (raisesOnDefault c)) = false := by
    rw [List.any_eq_false]
    intro c hc
    simp [h c hc]
  rw [show pyOk (categorize_artists_run l).1
      = pyOk (categorize_run_go ({}, [], []) l).1 from rfl, h2, hany]
  rfl

/-- `get_track_artists` returns normally when no credit raises. -/
theorem get_track_artists_run_ok (o : Option (List ArtistCredit))
    (h : ∀ c ∈ o.getD [], ¬ raisesOnDefault c) :
    pyOk (get_track_artists_run o) = true := by
  match o with
  | none => rfl
  | some [] => rfl
  | some (c :: l) =>
    have hok : pyOk (categorize_artists_run (c :: l)).1 = true :=
      categorize_run_pyOk (c :: l) h
    cases hcat : (categorize_artists_run (c :: l)).1 with
    | error u =>
      rw [hcat] at hok
      simp [pyOk] at hok
    | ok bnc =>
      simp only [get_track_artists_run]
      rw [hcat]
      rfl

/-- `get_album_artists` returns normally when no credit raises. -/
theorem get_album_artists_run_ok (o : Option (List ArtistCredit))
    (comp include_featured_artists : Bool)
    (h : ∀ c ∈ o.getD [], ¬ raisesOnDefault c) :
    pyOk (get_album_artists_run o comp include_featured_artists) = true := by
  match o with
  | none => rfl
  | some [] => rfl
  | some (c :: l) =>
    have hok : pyOk (categorize_artists_run (c :: l)).1 = true :=
      categorize_run_pyOk (c :: l) h
    cases hcat : (categorize_artists_run (c :: l)).1 with
    | error u =>
      rw [hcat] at hok
      simp [pyOk] at hok
    | ok bnc =>
      simp only [get_album_artists_run]
      rw [hcat]
      rfl

/-- `Mapper.track_info` returns normally when no credit of the song
raises. -/
theorem track_info_run_ok (cfg : MapperConfig) (song : SongForApiContract)
    (i : Option Nat) (m : Option String) (md mi mt : Option Nat)
    (h : ∀ c ∈ song.artists.getD [], ¬ raisesOnDefault c) :
    pyOk (track_info_run cfg song i m md mi mt) = true := by
  unfold track_info_run
  rw [pyOk_map]
  exact get_track_artists_run_ok _ h

/-- The per-disc emission returns normally when no reachable credit
raises. -/
theorem emitDisc_run_ok (cfg : MapperConfig) (genre : Option String)
    (name : Option String) (dn total : Nat) :
    ∀ g : List SongInAlbumForApiContract,
    (∀ s ∈ g, ∀ c ∈ songCredits s, ¬ raisesOnDefault c) →
    pyOk (emitDisc_run cfg genre name dn total g) = true := by
  intro g
  induction g with
  | nil => intro _; rfl
  | cons s rest ih =>
    intro hyp
    obtain ⟨sdn, stn, sso⟩ := s
    cases sso with
    | none =>
      rw [show emitDisc_run cfg genre name dn total (⟨sdn, stn, none⟩ :: rest)
          = emitDisc_run cfg genre name dn total rest from rfl]
      exact ih fun u hu => hyp u (List.mem_cons_of_mem _ hu)
    | some song =>
      have hart : ∀ c ∈ song.artists.getD [], ¬ raisesOnDefault c := by
        have := hyp ⟨sdn, stn, some song⟩ (List.mem_cons_self _ _)
        simpa [songCredits] using this
      have htio := track_info_run_ok cfg song (some stn) name
        (some dn) (some stn) (some total) hart
      rw [show emitDisc_run cfg genre name dn total
            (⟨sdn, stn, some song⟩ :: rest)
          = match track_info_run cfg song (some stn) name
              (some dn) (some stn) (some total) with
            | .error e => .error e
            | .ok t =>
              (emitDisc_run cfg genre name dn total rest).map
                fun ts => fillGenre genre t :: ts from rfl]
      cases htr : track_info_run cfg song (some stn) name
          (some dn) (some stn) (some total) with
      | error u =>
        rw [htr] at htio
        simp [pyOk] at htio
      | ok t =>
        have hrec : pyOk ((emitDisc_run cfg genre name dn total rest).map
            fun ts => fillGenre genre t :: ts) = true := by
          rw [pyOk_map]
          exact ih fun u hu => hyp u (List.mem_cons_of_mem _ hu)
        exact hrec

/-- Unfolding equation of the raising disc loop on a cons cell. -/
theorem tracksGo_run_cons (cfg : MapperConfig)
    (discs : List AlbumDiscPropertiesContract) (genre : Option String)
    (dn : Nat) (g : List SongInAlbumForApiContract)
    (rest : List (Nat × List SongInAlbumForApiContract)) :
    tracksGo_run cfg discs genre ((dn, g) :: rest)
      = if g = [] then tracksGo_run cfg discs genre rest
        else
          match pyDiscAt discs dn with
          | none => .error ()
          | some remote_disc =>
            if remote_disc.media_type = .VIDEO ∧ cfg.ignore_video_tracks then
              tracksGo_run cfg discs genre rest
            else
              match emitDisc_run cfg genre remote_disc.name dn g.length g with
              | .error e => .error e
              | .ok emitted =>
                (tracksGo_run cfg discs genre rest).map
                  fun ts => emitted ++ ts := rfl

/-- The raising disc loop returns normally whenever every non-empty group's
disc number indexes into the disc list and no reachable credit raises. -/
theorem tracksGo_run_ok (cfg : MapperConfig)
    (discs : List AlbumDiscPropertiesContract) (genre : Option String) :
    ∀ entries, (∀ p ∈ entries, p.2 ≠ [] → 1 ≤ p.1 ∧ p.1 ≤ discs.length) →
    (∀ p ∈ entries, ∀ s ∈ p.2, ∀ c ∈ songCredits s, ¬ raisesOnDefault c) →
    pyOk (tracksGo_run cfg discs genre entries) = true := by
  intro entries
  induction entries with
  | nil => intro _ _; rfl
  | cons p rest ih =>
    intro hd ha
    obtain ⟨dn, g⟩ := p
    rw [tracksGo_run_cons]
    by_cases hg : g = []
    · rw [if_pos hg]
      exact ih (fun q hq => hd q (List.mem_cons_of_mem _ hq))
        fun q hq => ha q (List.mem_cons_of_mem _ hq)
    · rw [if_neg hg]
      obtain ⟨h1, h2⟩ := hd (dn, g) (List.mem_cons_self _ _) hg
      cases hdisc : pyDiscAt discs dn with
      | none =>
        exfalso
        unfold pyDiscAt at hdisc
        rw [if_neg (by omega)] at hdisc
        rw [List.get?_eq_none] at hdisc
        omega
      | some rd =>
        show pyOk
          (if rd.media_type = .VIDEO ∧ cfg.ignore_video_tracks then
              tracksGo_run cfg discs genre rest
            else
              match emitDisc_run cfg genre rd.name dn g.length g with
              | .error e => .error e
              | .ok emitted =>
                (tracksGo_run cfg discs genre rest).map
                  fun ts => emitted ++ ts) = true
        by_cases hv : rd.media_type = .VIDEO ∧ cfg.ignore_video_tracks
        · rw [if_pos hv]
          exact ih (fun q hq => hd q (List.mem_cons_of_mem _ hq))
            fun q hq => ha q (List.mem_cons_of_mem _ hq)
        · rw [if_neg hv]
          have hemit := emitDisc_run_ok cfg genre rd.name dn g.length g
            fun s hs => ha (dn, g) (List.mem_cons_self _ _) s hs
          cases he : emitDisc_run cfg genre rd.name dn g.length g with
          | error u =>
            rw [he] at hemit
            simp [pyOk] at hemit
          | ok emitted =>
            have hrec : pyOk ((tracksGo_run cfg discs genre rest).map
                fun ts => emitted ++ ts) = true := by
              rw [pyOk_map]
              exact ih (fun q hq => hd q (List.mem_cons_of_mem _ hq))
                fun q hq => ha q (List.mem_cons_of_mem _ hq)
            exact hrec

/-- C2 counterexample: the mapping core can raise on well-typed input with
the album's tracks and discs perfectly consistent - a track whose disc
number exceeds the disc list raises `IndexError`, and a song credited to a
Default-role Producer raises `AttributeError` from artists.py line 200 (the
in-place role-set update stored onto a frozen msgspec contract). -/
theorem c2_counterexample_mapping_raises :
    pyOk (get_album_track_infos_run cfgC songsDisc2 [discAudio1] none) = false
    ∧ pyOk (album_info_run cfgC albumDisc2) = false
    ∧ pyOk (track_info_run cfgC songDefaultCredit none none none none none)
        = false
    ∧ pyOk (album_info_run cfgC albumDefaultCredit) = false := by
  refine ⟨by decide, by decide, by decide, by decide⟩

/-- C2 (amended): the mapping core returns normally for every input whose
track disc numbers all lie between 1 and the number of discs (supplied or
synthesized) *and* whose credits - album-level and per-song - contain no
resolvable Producer/Band credit with `Default` among its effective roles;
absent discs, absent embedded songs and video discs are all handled, while
an out-of-range disc number raises `IndexError` and a Default-role
Producer/Band credit raises `AttributeError`. -/
theorem c2_amended_no_raise_conditions :
    (∀ cfg songs discs genre,
      (∀ s ∈ songs, 1 ≤ s.disc_number ∧ s.disc_number ≤ discs.length) →
      (∀ s ∈ songs, ∀ c ∈ songCredits s, ¬ raisesOnDefault c) →
      pyOk (get_album_track_infos_run cfg songs discs genre) = true)
    ∧ (∀ cfg album,
      (∀ s ∈ album.tracks,
        1 ≤ s.disc_number ∧ s.disc_number ≤ (effectiveDiscs album).length) →
      (∀ s ∈ album.tracks, ∀ c ∈ songCredits s, ¬ raisesOnDefault c) →
      (∀ c ∈ album.artists.getD [], ¬ raisesOnDefault c) →
      pyOk (album_info_run cfg album) = true) := by
  have part1 : ∀ cfg songs discs genre,
      (∀ s ∈ songs, 1 ≤ s.disc_number ∧ s.disc_number ≤ discs.length) →
      (∀ s ∈ songs, ∀ c ∈ songCredits s, ¬ raisesOnDefault c) →
      pyOk (get_album_track_infos_run cfg songs discs genre) = true := by
    intro cfg songs discs genre hd ha
    unfold get_album_track_infos_run
    apply tracksGo_run_ok
    · intro p hp _
      obtain ⟨s, hs, hsd⟩ := group_tracks_by_disc_mem songs p hp
      rw [← hsd]
      exact hd s hs
    · intro p hp s hs c hc
      exact ha s (group_tracks_by_disc_values songs p hp s hs) c hc
  refine ⟨part1, ?_⟩
  intro cfg album hd ha hal
  by_cases he : album.tracks.isEmpty
  · unfold album_info_run
    rw [if_pos he]
    rfl
  · have h1 := part1 cfg album.tracks (effectiveDiscs album)
      (get_genres album.tags) hd ha
    cases hres : get_album_track_infos_run cfg album.tracks
        (effectiveDiscs album) (get_genres album.tags) with
    | error e =>
      rw [hres] at h1
      simp [pyOk] at h1
    | ok ts =>
      have h2 := get_album_artists_run_ok album.artists
        (decide (album.disc_type = DiscType.COMPILATION))
        cfg.include_featured_album_artists hal
      cases hart : get_album_artists_run album.artists
          (decide (album.disc_type = DiscType.COMPILATION))
          cfg.include_featured_album_artists with
      | error e =>
        rw [hart] at h2
        simp [pyOk] at h2
      | ok r =>
        simp only [album_info_run]
        rw [if_neg he, hres, hart]
        rfl

/-- C2 witness: one track on disc 1 of a one-disc album, with no raising
credit, maps without raising. -/
theorem c2_witness :
    pyOk (get_album_track_infos_run cfgC
      [{ disc_number := 1, track_number := 1, song := some songA }]
      [discAudio1] none) = true :=
  c2_amended_no_raise_conditions.1 cfgC
    [{ disc_number := 1, track_number := 1, song := some songA }]
    [discAudio1] none (by decide) (by decide)

/-- Every track the disc loop emits carries its source entry's disc number
as `medium`, the group size as `medium_total`, and its own track number as
both `index` and `medium_index`. -/
theorem tracksGo_mem (cfg : MapperConfig)
    (discs : List AlbumDiscPropertiesContract) (genre : Option String) :
    ∀ entries ts, pyToOption (tracksGo cfg discs genre entries) = some ts →
    ∀ t ∈ ts, ∃ p ∈ entries, ∃ s ∈ p.2, ∃ song, s.song = some song
      ∧ ∃ rd, pyDiscAt discs p.1 = some rd
      ∧ t = fillGenre genre
          (track_info cfg song (some s.track_number) rd.name (some p.1)
            (some s.track_number) (some p.2.length)) := by
  intro entries
  induction entries with
  | nil =>
    intro ts hts t ht
    simp [tracksGo, pyToOption] at hts
    subst hts
    cases ht
  | cons p rest ih =>
    intro ts hts t ht
    obtain ⟨dn, g⟩ := p
    rw [tracksGo_cons] at hts
    by_cases hg : g = []
    · rw [if_pos hg] at hts
      obtain ⟨q, hq, hqr⟩ := ih ts hts t ht
      exact ⟨q, List.mem_cons_of_mem _ hq, hqr⟩
    · rw [if_neg hg] at hts
      cases hd : pyDiscAt discs dn with
      | none =>
        rw [hd] at hts
        simp [pyToOption] at hts
      | some rd =>
        rw [hd] at hts
        cases hrest : tracksGo cfg discs genre rest with
        | error e =>
          rw [hrest] at hts
          simp [pyToOption, Except.map] at hts
        | ok ts2 =>
          rw [hrest] at hts
          simp only [Except.map, pyToOption, Option.some.injEq] at hts
          subst hts
          rcases List.mem_append.mp ht with hemit | hts2
          · by_cases hv : rd.media_type = .VIDEO ∧ cfg.ignore_video_tracks
            · rw [if_pos hv] at hemit
              cases hemit
            · rw [if_neg hv] at hemit
              obtain ⟨s, hs, song, hsong, htdef⟩ :=
                emitDisc_mem cfg genre rd.name dn g.length g t hemit
              exact ⟨(dn, g), List.mem_cons_self _ _, s, hs, song, hsong,
                rd, hd, htdef⟩
          · obtain ⟨q, hq, hqr⟩ :=
              ih ts2 (by rw [hrest]; rfl) t hts2
            exact ⟨q, List.mem_cons_of_mem _ hq, hqr⟩

/-- C6 counterexample: for two discs with one track each, the second emitted
track has `index = 1` (its own track number), not the running value 2 the
claim requires. -/
theorem c6_counterexample_index_not_running :
    ¬ ∀ ts, pyToOption (get_album_track_infos cfgC songsTwoDiscs discsTwo none)
        = some ts → ∀ i : Fin ts.length, (ts.get i).index = some (i.1 + 1) := by
  intro hcl
  exact absurd (hcl tracksTwoDiscs (by decide) ⟨1, by decide⟩) (by decide)

/-- C6 (amended): every emitted track's `index` equals its `medium_index`
(the track's own number on its disc), so the index restarts on each disc
instead of running across the album. -/
theorem c6_amended_index_equals_medium_index (cfg : MapperConfig)
    (songs : List SongInAlbumForApiContract)
    (discs : List AlbumDiscPropertiesContract) (genre : Option String)
    (ts : List TrackInfo)
    (hts : pyToOption (get_album_track_infos cfg songs discs genre) = some ts) :
    ∀ t ∈ ts, t.index = t.medium_index := by
  intro t ht
  obtain ⟨p, _, s, _, song, _, rd, _, htdef⟩ :=
    tracksGo_mem cfg discs genre (group_tracks_by_disc songs) ts hts t ht
  rw [htdef]
  rw [(fillGenre_fields genre _).1, (fillGenre_fields genre _).2.2.1]
  rfl

/-- C6 witness: the first track of the two-disc example has
`index = medium_index`. -/
theorem c6_witness :
    trackTwoDiscsHead ∈ tracksTwoDiscs
    ∧ trackTwoDiscsHead.index = trackTwoDiscsHead.medium_index :=
  ⟨by decide,
    c6_amended_index_equals_medium_index cfgC songsTwoDiscs discsTwo none
      tracksTwoDiscs (by decide) trackTwoDiscsHead (by decide)⟩

/-- C7 counterexample: a disc whose single track is numbered 2 has maximum
track number 2, but the emitted `medium_total` is 1 (the size of the disc's
group), refuting the claimed equality with the maximum track number. -/
theorem c7_counterexample_total_not_max :
    ((songsGap.map fun s => s.track_number).foldr max 0 = 2)
    ∧ ¬ ∀ ts, pyToOption (get_album_track_infos cfgC songsGap [discAudio1] none)
        = some ts → ∀ t ∈ ts, t.medium_total = some 2 := by
  refine ⟨by decide, ?_⟩
  intro hcl
  exact absurd (hcl tracksGap (by decide) trackGapHead (by decide)) (by decide)

/-- C7 (amended): every emitted track's `medium_total` is the *size* of the
group of tracks collected for its disc (which equals the maximum track
number only when the numbering is 1..n without gaps). -/
theorem c7_amended_total_is_group_size (cfg : MapperConfig)
    (songs : List SongInAlbumForApiContract)
    (discs : List AlbumDiscPropertiesContract) (genre : Option String)
    (ts : List TrackInfo)
    (hts : pyToOption (get_album_track_infos cfg songs discs genre) = some ts) :
    ∀ t ∈ ts, ∃ p, p ∈ group_tracks_by_disc songs
      ∧ t.medium = some p.1 ∧ t.medium_total = some p.2.length := by
  intro t ht
  obtain ⟨p, hp, s, _, song, _, rd, _, htdef⟩ :=
    tracksGo_mem cfg discs genre (group_tracks_by_disc songs) ts hts t ht
  refine ⟨p, hp, ?_, ?_⟩
  · rw [htdef, (fillGenre_fields genre _).2.1]
    rfl
  · rw [htdef, (fillGenre_fields genre _).2.2.2]
    rfl

/-- C7 witness: the gap example's emitted track carries the group size 1 as
`medium_total`. -/
theorem c7_witness :
    ∃ p, p ∈ group_tracks_by_disc songsGap
      ∧ trackGapHead.medium = some p.1
      ∧ trackGapHead.medium_total = some p.2.length :=
  c7_amended_total_is_group_size cfgC songsGap [discAudio1] none tracksGap
    (by decide) trackGapHead (by decide)

end VocaDB
